import Mathlib

set_option maxHeartbeats 1000000

/-!
Shallow embedding of the stylus CSS-preprocessor evaluator
(src/lib/visitor/evaluator.js).  Syntax-tree nodes live in an arena (a
list indexed by natural-number ids) so that the in-place mutations the
JavaScript source performs on shared node objects become explicit store
updates.  The evaluator state carries the frame stack, the return-mode
flag, the calling context, the import path context and the root index,
exactly mirroring the fields of the Evaluator object.  External
collaborators that are not part of src (the nodes module capabilities
coerce, operate, toBoolean and clone; the Scope and Stack structures;
the parser and path-search collaborators; builtin functions) are either
oracle fields of an environment record or small definitions marked as
modelled from the spec.  Recursion is bounded by explicit fuel; running
out of fuel yields a distinguished timeout result, never an answer.
-/

namespace Stylus

/-- Identifier of a node in the arena.  Id 0 is reserved for the
singleton null node (the JavaScript object nodes.null). -/
abbrev NodeId := Nat

/-- The syntax-tree variants consumed by the evaluator (spec section 2).
Children are arena ids. -/
inductive NodeKind where
  | unit (val : Int) (typ : String)
  | str (val : String)
  | bool (val : Bool)
  | null
  | literal (val : String)
  | ident (name : String) (val : NodeId)
  | expression (nodes : List NodeId)
  | binop (op : String) (left right : NodeId)
  | unaryop (op : String) (expr : NodeId)
  | ternary (cond trueExpr falseExpr : NodeId)
  | property (name : String) (expr : NodeId)
  | call (name : String) (args : NodeId)
  | function (name : String) (params : NodeId) (block : NodeId)
  | importStmt (path : String)
  | block (parent : Option NodeId) (nodes : List NodeId)
  | root (nodes : List NodeId)
  | selector (block : NodeId)
deriving DecidableEq, Repr

/-- A node: its variant plus the lineno and source fields every node
carries for diagnostics (spec section 3). -/
structure Node where
  kind : NodeKind
  source : String
  lineno : Nat
deriving DecidableEq, Repr

/-- An error thrown during evaluation.  The str and stylusStack fields
are the decoration attached by the visit wrapper (evaluator.js lines
60-71); none models an absent JavaScript property. -/
structure EvalError where
  msg : String
  str : Option String
  stylusStack : Option String
deriving DecidableEq, Repr

/-- One lexical frame.  Modelled from the spec: the frame/scope stack is
external to src and is specified only through the contract the
evaluator requires of it (spec sections 3 and 6).  A scope binding maps
a name to the val of the ident that scope.add received; a bound value
of none models a JavaScript undefined. -/
structure Frame where
  blockId : NodeId
  scope : List (String × Option NodeId)
deriving DecidableEq, Repr

/-- The mutable evaluator object: the arena plus every interpreter-wide
context field of the Evaluator (this.return is called ret here because
return is a reserved word). -/
structure EvState where
  store : List Node
  frames : List Frame
  ret : Bool
  calling : Option String
  importPath : Option String
  rootIndex : Nat
  paths : List String
  rootId : NodeId
  lineno : Nat
  trace : List NodeId
deriving DecidableEq, Repr

/-- Result of one evaluation step: a returned node (none models a
JavaScript undefined return value) with the mutated state, a thrown
error with the state at throw time, or fuel exhaustion. -/
inductive EResult where
  | ok : Option NodeId → EvState → EResult
  | err : EvalError → EvState → EResult
  | timeout : EResult
deriving DecidableEq, Repr

/-- A native callable (an entry of the user-supplied function table or
of the builtin registry).  It receives the evaluator state and the
first-reduced argument nodes and returns a node (spec section 6). -/
def Builtin := EvState → List (Option NodeId) → EResult

/-- The external collaborators of the evaluator.  coerce, operate and
toBool are the node capability set; fileLookup, fileParse and dirname
are the path-search and parser collaborators (all modelled from the
spec because their code is not under src). -/
structure Env where
  functions : String → Option Builtin
  bifs : String → Option Builtin
  coerce : List Node → NodeId → NodeId → Except EvalError Node
  operate : List Node → NodeId → String → Node → Except EvalError Node
  toBool : List Node → NodeId → Bool
  fileLookup : String → List String → Option String
  fileParse : String → Option (List Node)
  dirname : String → String

/-- An error as raised at a throw site: no decoration yet. -/
def typeError (m : String) : EvalError := ⟨m, none, none⟩

/-- Allocate a node in a bare store. -/
def allocN (st : List Node) (n : Node) : NodeId × List Node :=
  (st.length, st ++ [n])

/-- Allocate a node in the evaluator state. -/
def alloc (s : EvState) (n : Node) : NodeId × EvState :=
  (s.store.length, { s with store := s.store ++ [n] })

/-- The nodes array of an expression, block or root node. -/
def nodesOf (n : Node) : Option (List NodeId) :=
  match n.kind with
  | .expression ns => some ns
  | .block _ ns => some ns
  | .root ns => some ns
  | _ => none

/-- Replace the nodes array of an expression, block or root node. -/
def setNodes (n : Node) (ns : List NodeId) : Node :=
  match n.kind with
  | .expression _ => { n with kind := .expression ns }
  | .block p _ => { n with kind := .block p ns }
  | .root _ => { n with kind := .root ns }
  | _ => n

/-- Overwrite the node stored at an id (in-place mutation). -/
def setStore (s : EvState) (id : NodeId) (n : Node) : EvState :=
  { s with store := s.store.set id n }

/-- Mutate the val field of an ident node. -/
def setIdentVal (s : EvState) (id : NodeId) (v : NodeId) : EvState :=
  match s.store[id]? with
  | some n =>
    match n.kind with
    | .ident name _ => setStore s id { n with kind := .ident name v }
    | _ => s
  | none => s

/-- Mutate the args field of a call node. -/
def setCallArgs (s : EvState) (id : NodeId) (a : NodeId) : EvState :=
  match s.store[id]? with
  | some n =>
    match n.kind with
    | .call name _ => setStore s id { n with kind := .call name a }
    | _ => s
  | none => s

/-- Mutate the expr field of a property node. -/
def setPropExpr (s : EvState) (id : NodeId) (e : NodeId) : EvState :=
  match s.store[id]? with
  | some n =>
    match n.kind with
    | .property name _ => setStore s id { n with kind := .property name e }
    | _ => s
  | none => s

/-- Mutate the block field of a selector node. -/
def setSelectorBlock (s : EvState) (id : NodeId) (b : NodeId) : EvState :=
  match s.store[id]? with
  | some n =>
    match n.kind with
    | .selector _ => setStore s id { n with kind := .selector b }
    | _ => s
  | none => s

/-- Mutate the parent field of a block node. -/
def setBlockParent (s : EvState) (id : NodeId) (p : NodeId) : EvState :=
  match s.store[id]? with
  | some n =>
    match n.kind with
    | .block _ ns => setStore s id { n with kind := .block (some p) ns }
    | _ => s
  | none => s

/-- Stack.push with a fresh frame for the given block. -/
def pushFrame (s : EvState) (blockId : NodeId) : EvState :=
  { s with frames := ⟨blockId, []⟩ :: s.frames }

/-- Stack.pop. -/
def popFrame (s : EvState) : EvState :=
  { s with frames := s.frames.tail }

/-- Scope.add on the current frame.  Modelled from the spec: the scope
stores the val of the added ident under its name, last write wins. -/
def scopeAdd (s : EvState) (name : String) (v : Option NodeId) : EvState :=
  match s.frames with
  | fr :: rest => { s with frames := { fr with scope := (name, v) :: fr.scope } :: rest }
  | [] => s

/-- Lookup inside one frame scope (most recent write first). -/
def frameLookup (fr : Frame) (name : String) : Option (Option NodeId) :=
  (fr.scope.find? (fun p => p.1 == name)).map (·.2)

/-- Stack.lookup: scans frames innermost to outermost and returns the
first binding found (spec section 3). -/
def stackLookup (frames : List Frame) (name : String) : Option (Option NodeId) :=
  frames.findSome? (fun fr => frameLookup fr name)

/-- The first capability: an expression reduces to its leading node,
every other node is its own first value (spec section 3).  none models
the JavaScript undefined produced by an empty expression. -/
def firstN (st : List Node) (id : NodeId) : Option NodeId :=
  match st[id]? with
  | some n =>
    match n.kind with
    | .expression ns => ns.head?
    | _ => some id
  | none => none

/-- The single expression unwrap performed by visitCall on a resolved
node (evaluator.js lines 190-192): an expression is replaced by its
first node, everything else stays. -/
def unwrap (st : List Node) (nid : NodeId) : Option NodeId :=
  match st[nid]? with
  | some n =>
    match n.kind with
    | .expression ns => ns.head?
    | _ => some nid
  | none => some nid

/-- Error decoration performed by the visit wrapper: attach the source
excerpt and the frame-stack rendering only when the error does not
already carry them (evaluator.js lines 67-68). -/
def decorate (e : EvalError) (src : String) (tr : String) : EvalError :=
  { msg := e.msg, str := some (e.str.getD src),
    stylusStack := some (e.stylusStack.getD tr) }

/-- Stack.toString.  Modelled from the spec: each frame is rendered as a
label of its originating block, outermost frame first. -/
def stackToString (frames : List Frame) : String :=
  String.intercalate "\n" (frames.reverse.map (fun fr => "at block " ++ toString fr.blockId))

/-- The clone capability as one fuel-bounded function over a worklist of
node ids: deep copy allocating fresh nodes (spec section 6).  Modelled
from the spec for the parts outside src: children are cloned
recursively left to right before the copy of the node itself is
allocated, a block parent is copied as a reference (the stylus Block
clone re-parents later), and the singleton null node is preserved as id
0 so that reference idents stay references under the identity test of
visitIdent. -/
def cloneA : Nat → List Node → List NodeId → Option (List NodeId × List Node)
  | 0, _, _ => none
  | _+1, st, [] => some ([], st)
  | fuel+1, st, id :: rest =>
    match st[id]? with
    | none => none
    | some n =>
      let selfRes : Option (NodeId × List Node) :=
        match n.kind with
        | .null => some (0, st)
        | .unit v t => some (allocN st { n with kind := .unit v t })
        | .str v => some (allocN st { n with kind := .str v })
        | .bool v => some (allocN st { n with kind := .bool v })
        | .literal v => some (allocN st { n with kind := .literal v })
        | .importStmt p => some (allocN st { n with kind := .importStmt p })
        | .ident name v =>
          match cloneA fuel st [v] with
          | some (v2 :: _, st1) => some (allocN st1 { n with kind := .ident name v2 })
          | _ => none
        | .expression ns =>
          match cloneA fuel st ns with
          | some (ns2, st1) => some (allocN st1 { n with kind := .expression ns2 })
          | none => none
        | .binop op l r =>
          match cloneA fuel st [l, r] with
          | some (l2 :: r2 :: _, st1) => some (allocN st1 { n with kind := .binop op l2 r2 })
          | _ => none
        | .unaryop op e =>
          match cloneA fuel st [e] with
          | some (e2 :: _, st1) => some (allocN st1 { n with kind := .unaryop op e2 })
          | _ => none
        | .ternary c t e =>
          match cloneA fuel st [c, t, e] with
          | some (c2 :: t2 :: e2 :: _, st1) =>
            some (allocN st1 { n with kind := .ternary c2 t2 e2 })
          | _ => none
        | .property name e =>
          match cloneA fuel st [e] with
          | some (e2 :: _, st1) => some (allocN st1 { n with kind := .property name e2 })
          | _ => none
        | .call name a =>
          match cloneA fuel st [a] with
          | some (a2 :: _, st1) => some (allocN st1 { n with kind := .call name a2 })
          | _ => none
        | .function name p b =>
          match cloneA fuel st [p, b] with
          | some (p2 :: b2 :: _, st1) =>
            some (allocN st1 { n with kind := .function name p2 b2 })
          | _ => none
        | .block parent ns =>
          match cloneA fuel st ns with
          | some (ns2, st1) => some (allocN st1 { n with kind := .block parent ns2 })
          | none => none
        | .root ns =>
          match cloneA fuel st ns with
          | some (ns2, st1) => some (allocN st1 { n with kind := .root ns2 })
          | none => none
        | .selector b =>
          match cloneA fuel st [b] with
          | some (b2 :: _, st1) => some (allocN st1 { n with kind := .selector b2 })
          | _ => none
      match selfRes with
      | none => none
      | some (c, st1) =>
        match cloneA fuel st1 rest with
        | some (cs, st2) => some (c :: cs, st2)
        | none => none

/-- Clone one node: the clone method on a single node. -/
def cloneN (fuel : Nat) (st : List Node) (id : NodeId) : Option (NodeId × List Node) :=
  match cloneA fuel st [id] with
  | some (c :: _, st1) => some (c, st1)
  | _ => none

/-- Embeds Evaluator.prototype.invoke (evaluator.js lines 477-488): in
return mode the invocation yields the last node of the evaluated body;
otherwise every body statement is pushed onto the nodes array of the
block of the current frame and the call reduces to the null node. -/
def invoke (s : EvState) (bodyId : NodeId) : EResult :=
  match s.store[bodyId]? with
  | none => .err (typeError "TypeError: invoke on missing node") s
  | some bodyN =>
    match nodesOf bodyN with
    | none => .err (typeError "TypeError: body has no nodes") s
    | some bns =>
      if s.ret then
        .ok bns.getLast? s
      else
        match s.frames.head? with
        | none => .err (typeError "TypeError: no current frame") s
        | some fr =>
          match s.store[fr.blockId]? with
          | none => .err (typeError "TypeError: frame block missing") s
          | some bn =>
            match nodesOf bn with
            | none => .err (typeError "TypeError: frame block has no nodes") s
            | some cns =>
              .ok (some 0) (setStore s fr.blockId (setNodes bn (cns ++ bns)))

/-- Embeds Evaluator.prototype.isDefined (evaluator.js lines 525-531).
The message rendering of the offending node is modelled from the spec. -/
def isDefined (s : EvState) (id : NodeId) : EResult :=
  match s.store[id]? with
  | none => .err (typeError "TypeError: missing node") s
  | some n =>
    match n.kind with
    | .ident name _ =>
      let b := match stackLookup s.frames name with
        | some (some _) => true
        | _ => false
      let (bid, s1) := alloc s ⟨.bool b, "", 0⟩
      .ok (some bid) s1
    | _ => .err (typeError "invalid \"is defined\" check on non-variable") s

/-- Result of Evaluator.prototype.lookupFunction: either a node bound in
the lexical environment or a native callable. -/
inductive FnV where
  | builtin (b : Builtin)
  | node (id : NodeId)

/-- Embeds Evaluator.prototype.lookupFunction (evaluator.js lines
511-515): lexical lookup, then the user-supplied function table, then
the builtin registry; a binding holding a JavaScript undefined is falsy
and falls through. -/
def lookupFunction (env : Env) (s : EvState) (name : String) : Option FnV :=
  match stackLookup s.frames name with
  | some (some v) => some (.node v)
  | _ =>
    match env.functions name with
    | some b => some (.builtin b)
    | none => (env.bifs name).map .builtin

/-- Embeds the parameter-binding forEach loop of
Evaluator.prototype.invokeFunction (evaluator.js lines 415-426).  The
bound value is the positional argument if present, else the declared
default; note that it is captured before the parameter node is cloned,
so a default value is bound by reference to the node stored in the
original definition.  The message of the required-argument error is
modelled from the spec as naming the parameter and the function. -/
def bindParams (fuel : Nat) (s : EvState) (pids : List NodeId)
    (argNodes : List NodeId) (i : Nat) (fnName : String) : EResult :=
  match pids with
  | [] => .ok none s
  | pid :: rest =>
    match s.store[pid]? with
    | none => .err (typeError "TypeError: missing parameter node") s
    | some pn =>
      match pn.kind with
      | .ident pname pval =>
        let v := (argNodes[i]?).getD pval
        match cloneN fuel s.store pid with
        | none => .timeout
        | some (cid, st1) =>
          let s1 := setIdentVal { s with store := st1 } cid v
          match s1.store[v]? with
          | some vn =>
            match vn.kind with
            | .null =>
              .err (typeError ("argument " ++ pname ++ " required for " ++ fnName)) s1
            | _ => bindParams fuel (scopeAdd s1 pname (some v)) rest argNodes (i + 1) fnName
          | none => bindParams fuel (scopeAdd s1 pname (some v)) rest argNodes (i + 1) fnName
      | _ => .err (typeError "TypeError: parameter is not an ident") s

/-- Embeds Evaluator.prototype.visitImport (evaluator.js lines 358-393)
for the state part that lives in src; the path search, the file read
and the parse are environment oracles.  A path ending in .css is left
untouched; otherwise the located file is parsed and its statements are
spliced into the root nodes immediately after the current root index
(splice off the tail, let parse append, push the tail back), the import
directory becomes the active import path, and the import reduces to the
null node. -/
def visitImport (env : Env) (s : EvState) (id : NodeId) (path : String) : EResult :=
  if path.endsWith ".css" then .ok (some id) s
  else
    let path := path ++ ".styl"
    let searchPaths := s.paths ++ (match s.importPath with | some r => [r] | none => [])
    match env.fileLookup path searchPaths with
    | none => .err (typeError ("failed to locate @import file " ++ path)) s
    | some found =>
      let s1 := { s with importPath := some (env.dirname found) }
      match env.fileParse found with
      | none => .err (typeError ("ParseError: " ++ found)) s1
      | some parsed =>
        match s1.store[s1.rootId]? with
        | none => .err (typeError "TypeError: missing root") s1
        | some rootN =>
          match nodesOf rootN with
          | none => .err (typeError "TypeError: root has no nodes") s1
          | some ns =>
            let newIds := (List.range parsed.length).map (fun k => s1.store.length + k)
            let s2 := { s1 with store := s1.store ++ parsed }
            let ns1 := ns.take (s1.rootIndex + 1) ++ newIds ++ ns.drop (s1.rootIndex + 1)
            .ok (some 0) (setStore s2 s1.rootId (setNodes rootN ns1))

/-- Write the visited result back into slot i of the nodes array of an
expression, block or root node.  When the visitor produced no node the
slot is kept (the JavaScript source would store undefined there; no
further step of any verified property reads such a slot). -/
def writeSlot (s : EvState) (id : NodeId) (i : Nat) (v : Option NodeId) : EvState :=
  match v with
  | none => s
  | some v0 =>
    match s.store[id]? with
    | some n =>
      match nodesOf n with
      | some ns => setStore s id (setNodes n (ns.set i v0))
      | none => s
    | none => s

/-- Whether a node variant is a user function definition. -/
def isFunctionKind : NodeKind → Bool
  | .function _ _ _ => true
  | _ => false

/-- The opening moves of invokeFunction after the body clone (evaluator.js
lines 409-414): allocate the synthetic parent block that will host the
argument bindings (its parent is the parent of the cloned body),
re-parent the cloned body under it, and push a frame scoped to it. -/
def invokePrelude (s : EvState) (bodyId : NodeId) (st1 : List Node) : EvState :=
  let bodyParent := match st1[bodyId]? with
    | some bodyN =>
      match bodyN.kind with
      | .block p _ => p
      | _ => none
    | none => none
  let (blkId, s2) := alloc { s with store := st1 } ⟨.block bodyParent [], "", 0⟩
  let s3 := setBlockParent s2 bodyId blkId
  pushFrame s3 blkId

/-- One dispatch target of the interpreter: each constructor corresponds
to one visit method or invocation helper of the Evaluator.  A single
worklist type keeps the whole interpreter one structurally recursive
function on fuel, so concrete runs reduce inside the kernel. -/
inductive Job where
  | visitJob (id : NodeId)
  | dispatchJob (id : NodeId) (n : Node)
  | slotsJob (id : NodeId) (i len : Nat)
  | rootLoopJob (id : NodeId) (i : Nat)
  | blockJob (id : NodeId)
  | selectorJob (id : NodeId) (b : NodeId)
  | identJob (id : NodeId) (name : String) (val : NodeId)
  | callJob (id : NodeId) (name : String) (args : NodeId)
  | literalJob (id : NodeId) (args : NodeId)
  | invokeFnJob (fnId : NodeId) (args : NodeId)
  | invokeBIJob (b : Builtin) (args : NodeId)
  | binopJob (op : String) (l r : NodeId)
  | unaryJob (op : String) (e : NodeId)
  | ternaryJob (c t e : NodeId)
  | propJob (id : NodeId) (name : String) (e : NodeId)

/-- The interpreter.  Each job body is the direct transcription of the
corresponding Evaluator method; the named wrapper definitions below
document the correspondence line by line. -/
def step : Nat → Env → EvState → Job → EResult
  | 0, _, _, _ => .timeout
  | fuel+1, env, s, job =>
    match job with
    | .visitJob id =>
      match s.store[id]? with
      | none => .err (typeError "TypeError: cannot visit missing node") s
      | some n =>
        let s1 := { s with lineno := n.lineno, trace := s.trace ++ [id] }
        match step fuel env s1 (.dispatchJob id n) with
        | .err e s2 => .err (decorate e n.source (stackToString s2.frames)) s2
        | r => r
    | .dispatchJob id n =>
      match n.kind with
      | .unit _ _ => .ok (some id) s
      | .str _ => .ok (some id) s
      | .bool _ => .ok (some id) s
      | .null => .ok (some id) s
      | .literal _ => .ok (some id) s
      | .function _ _ _ => .ok (some id) s
      | .ident name val => step fuel env s (.identJob id name val)
      | .expression ns => step fuel env s (.slotsJob id 0 ns.length)
      | .binop op l r => step fuel env s (.binopJob op l r)
      | .unaryop op e => step fuel env s (.unaryJob op e)
      | .ternary c t e => step fuel env s (.ternaryJob c t e)
      | .property name e => step fuel env s (.propJob id name e)
      | .call name a => step fuel env s (.callJob id name a)
      | .importStmt p => visitImport env s id p
      | .block _ _ => step fuel env s (.blockJob id)
      | .root _ => step fuel env s (.rootLoopJob id 0)
      | .selector b => step fuel env s (.selectorJob id b)
    | .slotsJob id i len =>
      if i < len then
        match s.store[id]? with
        | none => .err (typeError "TypeError: missing node") s
        | some n =>
          match (nodesOf n).bind (fun ns => ns[i]?) with
          | none => .err (typeError "TypeError: missing child") s
          | some child =>
            match step fuel env s (.visitJob child) with
            | .ok v s1 => step fuel env (writeSlot s1 id i v) (.slotsJob id (i + 1) len)
            | r => r
      else .ok (some id) s
    | .rootLoopJob id i =>
      match s.store[id]? with
      | none => .err (typeError "TypeError: missing root") s
      | some n =>
        match nodesOf n with
        | none => .err (typeError "TypeError: root has no nodes") s
        | some ns =>
          if i < ns.length then
            let s0 := { s with rootIndex := i }
            match ns[i]? with
            | none => .err (typeError "TypeError: missing child") s0
            | some child =>
              match step fuel env s0 (.visitJob child) with
              | .ok v s1 => step fuel env (writeSlot s1 id i v) (.rootLoopJob id (i + 1))
              | r => r
          else .ok (some id) s
    | .blockJob id =>
      let s1 := pushFrame s id
      let len := match s1.store[id]? with
        | some n => ((nodesOf n).getD []).length
        | none => 0
      match step fuel env s1 (.slotsJob id 0 len) with
      | .ok _ s2 => .ok (some id) (popFrame s2)
      | r => r
    | .selectorJob id b =>
      match step fuel env s (.visitJob b) with
      | .ok v s1 =>
        let s2 := match v with
          | some b2 => setSelectorBlock s1 id b2
          | none => s1
        .ok (some id) s2
      | r => r
    | .identJob id name val =>
      if val == 0 then
        match stackLookup s.frames name with
        | some (some v) => step fuel env s (.visitJob v)
        | _ => .ok (some id) s
      else
        let r0 := s.ret
        match step fuel env { s with ret := true } (.visitJob val) with
        | .ok v s1 =>
          let s2 := { s1 with ret := r0 }
          let s3 := match v with
            | some v0 => setIdentVal s2 id v0
            | none => s2
          .ok v (scopeAdd s3 name v)
        | r => r
    | .callJob id name argsId =>
      match lookupFunction env s name with
      | none => step fuel env s (.literalJob id argsId)
      | some fv =>
        let fn : Option (Sum Builtin NodeId) :=
          match fv with
          | .builtin b => some (.inl b)
          | .node nid => (unwrap s.store nid).map Sum.inr
        let r0 := s.ret
        match step fuel env { s with calling := some name, ret := true } (.visitJob argsId) with
        | .ok av s1 =>
          let s2 := { s1 with ret := r0 }
          match fn with
          | some (.inl b) =>
            match av with
            | some a => step fuel env s2 (.invokeBIJob b a)
            | none => .err (typeError "TypeError: missing arguments") s2
          | some (.inr nid) =>
            match s2.store[nid]? with
            | some n =>
              match n.kind with
              | .function _ _ _ =>
                match av with
                | some a => step fuel env s2 (.invokeFnJob nid a)
                | none => .err (typeError "TypeError: missing arguments") s2
              | _ => .ok none s2
            | none => .ok none s2
          | none => .ok none s2
        | r => r
    | .literalJob id argsId =>
      match step fuel env s (.visitJob argsId) with
      | .ok v s1 =>
        let s2 := match v with
          | some a => setCallArgs s1 id a
          | none => s1
        .ok (some id) s2
      | r => r
    | .invokeFnJob fnId argsId =>
      match s.store[fnId]? with
      | none => .err (typeError "TypeError: missing function node") s
      | some fnN =>
        match fnN.kind with
        | .function fname paramsId blockId =>
          match cloneN fuel s.store blockId with
          | none => .timeout
          | some (bodyId, st1) =>
            match st1[bodyId]? with
            | none => .timeout
            | some _ =>
              let s4 := invokePrelude s bodyId st1
              match s4.store[argsId]? with
              | none => .err (typeError "TypeError: missing arguments") s4
              | some argsN =>
                match nodesOf argsN with
                | none => .err (typeError "TypeError: arguments is not an expression") s4
                | some argNodes =>
                  match s4.store[paramsId]? with
                  | none => .err (typeError "TypeError: missing params") s4
                  | some paramsN =>
                    match nodesOf paramsN with
                    | none => .err (typeError "TypeError: params is not an expression") s4
                    | some pids =>
                      match bindParams fuel s4 pids argNodes 0 fname with
                      | .ok _ s5 =>
                        match step fuel env s5 (.visitJob bodyId) with
                        | .ok bv s6 =>
                          let s7 := popFrame s6
                          match bv with
                          | some b => invoke s7 b
                          | none => .err (typeError "TypeError: missing body") s7
                        | r => r
                      | r => r
        | _ => .err (typeError "TypeError: not a function") s
    | .invokeBIJob b argsId =>
      match s.store[argsId]? with
      | none => .err (typeError "TypeError: missing arguments") s
      | some argsN =>
        match nodesOf argsN with
        | none => .err (typeError "TypeError: arguments is not an expression") s
        | some ns =>
          let firsts := ns.map (firstN s.store)
          match b s firsts with
          | .ok v s1 =>
            match v with
            | some vid =>
              match s1.store[vid]? with
              | some n =>
                match n.kind with
                | .expression _ => invoke s1 vid
                | _ =>
                  let (eid, s2) := alloc s1 ⟨.expression [vid], "", 0⟩
                  invoke s2 eid
              | none =>
                let (eid, s2) := alloc s1 ⟨.expression [vid], "", 0⟩
                invoke s2 eid
            | none =>
              let (eid, s2) := alloc s1 ⟨.expression [], "", 0⟩
              invoke s2 eid
          | r => r
    | .binopJob op l r =>
      if op == "is defined" then isDefined s l
      else
        let r0 := s.ret
        match step fuel env { s with ret := true } (.visitJob l) with
        | .ok lv s1 =>
          match lv.bind (firstN s1.store) with
          | none => .err (typeError "TypeError: missing left operand") s1
          | some lf =>
            match step fuel env s1 (.visitJob r) with
            | .ok rv s2 =>
              match rv.bind (firstN s2.store) with
              | none => .err (typeError "TypeError: missing right operand") s2
              | some rf =>
                let s3 := { s2 with ret := r0 }
                let coerced : Except EvalError Node :=
                  if ["||", "&&", "is a"].contains op then
                    match s3.store[rf]? with
                    | some rn => .ok rn
                    | none => .error (typeError "TypeError: missing right operand")
                  else env.coerce s3.store lf rf
                match coerced with
                | .error e => .err e s3
                | .ok rn =>
                  match env.operate s3.store lf op rn with
                  | .error e => .err e s3
                  | .ok res =>
                    let (rid, s4) := alloc s3 res
                    step fuel env s4 (.visitJob rid)
            | r2 => r2
        | r2 => r2
    | .unaryJob op e =>
      match step fuel env s (.visitJob e) with
      | .ok v s1 =>
        match v.bind (firstN s1.store) with
        | none => .err (typeError "TypeError: missing operand") s1
        | some nid =>
          match s1.store[nid]? with
          | none => .err (typeError "TypeError: missing operand") s1
          | some n =>
            if op == "!" then
              let (bid, s2) := alloc s1 ⟨.bool (!(env.toBool s1.store nid)), "", 0⟩
              .ok (some bid) s2
            else
              match n.kind with
              | .unit v0 t =>
                if op == "-" then
                  .ok (some nid) (setStore s1 nid { n with kind := .unit (-v0) t })
                else if op == "+" then .ok (some nid) s1
                else if op == "~" then
                  .ok (some nid) (setStore s1 nid { n with kind := .unit (-(v0 + 1)) t })
                else .ok (some nid) s1
              | _ => .err (typeError "TypeError: expected a Unit node") s1
      | r => r
    | .ternaryJob c t e =>
      match step fuel env s (.visitJob c) with
      | .ok cv s1 =>
        match cv with
        | some c0 =>
          if env.toBool s1.store c0 then step fuel env s1 (.visitJob t)
          else step fuel env s1 (.visitJob e)
        | none => .err (typeError "TypeError: missing condition") s1
      | r => r
    | .propJob id name e =>
      let isFn := match stackLookup s.frames name with
        | some (some v) =>
          match s.store[v]? with
          | some n => isFunctionKind n.kind
          | none => false
        | _ => false
      let literal := s.calling == some name
      if isFn && !literal then
        let s1 := { s with calling := some name }
        let (cid, s2) := alloc s1 ⟨.call name e, "", s1.lineno⟩
        match step fuel env s2 (.visitJob cid) with
        | .ok v s3 => .ok v { s3 with calling := none }
        | r => r
      else
        let r0 := s.ret
        match step fuel env { s with ret := true } (.visitJob e) with
        | .ok v s1 =>
          let s2 := match v with
            | some e2 => setPropExpr s1 id e2
            | none => s1
          .ok (some id) { s2 with ret := r0 }
        | r => r

/-- Embeds Evaluator.prototype.visit (evaluator.js lines 60-71): record
the lineno of the node, dispatch on its variant, and on a thrown error
attach the source excerpt of this node and the rendering of the frame
stack at throw time, each only if the error does not already carry one.
The ghost trace field records the order of dispatches. -/
def visit (fuel : Nat) (env : Env) (s : EvState) (id : NodeId) : EResult :=
  step fuel env s (.visitJob id)

/-- The visitor dispatch over the node variant.  Leaf and value variants
(literal, boolean, unit, string, null, function definition) are the
identity, mirroring evaluator.js lines 88-146; the base Visitor
dispatch itself is modelled from the spec. -/
def dispatch (fuel : Nat) (env : Env) (s : EvState) (id : NodeId) (n : Node) : EResult :=
  step fuel env s (.dispatchJob id n)

/-- The statement loop of visitExpression (evaluator.js lines 297-302),
also used for the body of visitBlock: visit slots 0..len of the live
nodes array, writing each result back in place.  len is fixed at entry,
so nodes appended during the loop are not visited by it. -/
def visitSlots (fuel : Nat) (env : Env) (s : EvState) (id : NodeId) (i len : Nat) : EResult :=
  step fuel env s (.slotsJob id i len)

/-- Embeds Evaluator.prototype.visitRoot (evaluator.js lines 333-339):
before each statement the root index is set to the running index; the
loop rereads the length of the live root nodes array, so statements
spliced in by an import are visited in the same pass. -/
def visitRootLoop (fuel : Nat) (env : Env) (s : EvState) (id : NodeId) (i : Nat) : EResult :=
  step fuel env s (.rootLoopJob id i)

/-- Embeds Evaluator.prototype.visitBlock (evaluator.js lines 345-352):
push a frame for the block, visit its statements with the length fixed
at entry, pop the frame.  On a thrown error the frame is not popped. -/
def visitBlock (fuel : Nat) (env : Env) (s : EvState) (id : NodeId) : EResult :=
  step fuel env s (.blockJob id)

/-- Embeds Evaluator.prototype.visitSelector (evaluator.js lines
164-167). -/
def visitSelector (fuel : Nat) (env : Env) (s : EvState) (id b : NodeId) : EResult :=
  step fuel env s (.selectorJob id b)

/-- Embeds Evaluator.prototype.visitIdent (evaluator.js lines 213-227).
An ident whose val is the singleton null node is a reference: look it
up and visit the bound value, or pass the ident through unresolved.  An
ident carrying a value is an assignment: evaluate the right side in
return mode, restore the flag, bind into the current frame scope and
return the evaluated value. -/
def visitIdent (fuel : Nat) (env : Env) (s : EvState) (id : NodeId)
    (name : String) (val : NodeId) : EResult :=
  step fuel env s (.identJob id name val)

/-- Embeds Evaluator.prototype.visitCall (evaluator.js lines 181-207).
An unresolved name becomes a literal pass-through call.  Otherwise the
calling context is set, a resolved expression is unwrapped to its first
node, the arguments are visited in return mode (restored afterwards),
and the resolved value is invoked as a builtin or as a user function;
any other resolved value falls through and the dispatch returns no node
at all. -/
def visitCall (fuel : Nat) (env : Env) (s : EvState) (id : NodeId)
    (name : String) (args : NodeId) : EResult :=
  step fuel env s (.callJob id name args)

/-- Embeds Evaluator.prototype.literalCall (evaluator.js lines 498-501):
visit the arguments in place and return the call node unchanged. -/
def literalCall (fuel : Nat) (env : Env) (s : EvState) (id args : NodeId) : EResult :=
  step fuel env s (.literalJob id args)

/-- Embeds Evaluator.prototype.invokeFunction (evaluator.js lines
404-434): clone the function body, create a synthetic parent block to
host the argument bindings, push a frame on it, bind the parameters,
visit the cloned body, pop the frame and apply the return-versus-splice
policy. -/
def invokeFunction (fuel : Nat) (env : Env) (s : EvState) (fnId args : NodeId) : EResult :=
  step fuel env s (.invokeFnJob fnId args)

/-- Embeds Evaluator.prototype.invokeBuiltin (evaluator.js lines
445-467): reduce each argument expression to its first value, apply the
native callable, wrap a non-expression result into a one-element
expression and apply the return-versus-splice policy.  (When the
callable yields no node the JavaScript source wraps an undefined slot;
the model wraps an empty expression, which invokes identically in
return mode and splices nothing in mixin mode.) -/
def invokeBuiltin (fuel : Nat) (env : Env) (s : EvState) (b : Builtin) (args : NodeId) : EResult :=
  step fuel env s (.invokeBIJob b args)

/-- Embeds Evaluator.prototype.visitBinOp (evaluator.js lines 233-253).
The pseudo operator is defined short-circuits to the defined check.
Otherwise both operands are visited in return mode and reduced to their
first values, the flag is restored, the right operand is coerced to the
left via the left coercion capability unless the operator is one of ||
and && and is a, the left operate capability is applied, and its result
node is itself visited. -/
def visitBinOp (fuel : Nat) (env : Env) (s : EvState) (op : String) (l r : NodeId) : EResult :=
  step fuel env s (.binopJob op l r)

/-- Embeds Evaluator.prototype.visitUnaryOp (evaluator.js lines
259-280): reduce the operand to its first value; every operator except
logical not requires a unit node and mutates its numeric value in
place; logical not converts the operand to a boolean and returns the
negation.  The assertType message is modelled from the spec. -/
def visitUnary (fuel : Nat) (env : Env) (s : EvState) (op : String) (e : NodeId) : EResult :=
  step fuel env s (.unaryJob op e)

/-- Embeds Evaluator.prototype.visitTernary (evaluator.js lines
286-291): visit the condition, reduce it to a boolean, and visit only
the taken branch. -/
def visitTernary (fuel : Nat) (env : Env) (s : EvState) (c t e : NodeId) : EResult :=
  step fuel env s (.ternaryJob c t e)

/-- Embeds Evaluator.prototype.visitProperty (evaluator.js lines
308-327): when a function of the same name is bound and this property
is not the one currently being called, rewrite the property into a call
node and visit it (clearing the calling context afterwards); otherwise
visit the property expression in return mode in place. -/
def visitProperty (fuel : Nat) (env : Env) (s : EvState) (id : NodeId)
    (name : String) (e : NodeId) : EResult :=
  step fuel env s (.propJob id name e)

/-- Embeds Evaluator.prototype.evaluate (evaluator.js lines 80-82). -/
def evaluate (fuel : Nat) (env : Env) (s : EvState) : EResult :=
  visit fuel env s s.rootId

/-- The state the Evaluator constructor builds (evaluator.js lines
34-43): the global frame wraps the root node; the dirname of the
missing filename option is the single initial search path. -/
def initState (st : List Node) (rootId : NodeId) : EvState :=
  { store := st, frames := [⟨rootId, []⟩], ret := false, calling := none,
    importPath := none, rootIndex := 0, paths := ["."], rootId := rootId,
    lineno := 0, trace := [] }

/-- A one-step truthiness of a node value.  Modelled from the spec:
render boolean truthiness (spec section 2). -/
def baseToBool (n : Node) : Bool :=
  match n.kind with
  | .bool b => b
  | .unit v _ => v != 0
  | .str s => s.length != 0
  | .null => false
  | _ => true

/-- Modelled from the spec: a sample toBoolean capability used to
instantiate the oracle; an expression renders the truthiness of its
first node. -/
def sampleToBool (st : List Node) (id : NodeId) : Bool :=
  match st[id]? with
  | some n =>
    match n.kind with
    | .expression ns =>
      match ns.head? with
      | some h =>
        match st[h]? with
        | some m => baseToBool m
        | none => false
      | none => false
    | _ => baseToBool n
  | none => false

/-- Modelled from the spec: a sample coercion capability.  Coercing to a
unit keeps the numeric value and adopts the unit type tag; same-kind
nodes pass through; anything else fails with a type-coercion error
(spec section 6). -/
def sampleCoerce (st : List Node) (l r : NodeId) : Except EvalError Node :=
  match st[l]?, st[r]? with
  | some ln, some rn =>
    match ln.kind, rn.kind with
    | .unit _ lt, .unit rv _ => .ok { rn with kind := .unit rv lt }
    | .str _, .str _ => .ok rn
    | .bool _, .bool _ => .ok rn
    | _, _ => .error (typeError "TypeError: cannot coerce")
  | _, _ => .error (typeError "TypeError: cannot coerce missing node")

/-- Modelled from the spec: a sample operate capability covering unit
arithmetic and equality; unsupported operators fail as the spec
requires (spec sections 6 and 7). -/
def sampleOperate (st : List Node) (l : NodeId) (op : String) (r : Node) :
    Except EvalError Node :=
  match st[l]? with
  | some ln =>
    match ln.kind, r.kind with
    | .unit a t, .unit b _ =>
      if op == "+" then .ok ⟨.unit (a + b) t, "", 0⟩
      else if op == "-" then .ok ⟨.unit (a - b) t, "", 0⟩
      else if op == "*" then .ok ⟨.unit (a * b) t, "", 0⟩
      else if op == "==" then .ok ⟨.bool (a == b), "", 0⟩
      else .error (typeError ("operator not supported: " ++ op))
    | _, _ => .error (typeError ("operator not supported: " ++ op))
  | none => .error (typeError "TypeError: missing left operand")

/-- A sample environment with empty function tables and no files. -/
def sampleEnv : Env :=
  { functions := fun _ => none, bifs := fun _ => none,
    coerce := sampleCoerce, operate := sampleOperate, toBool := sampleToBool,
    fileLookup := fun _ _ => none, fileParse := fun _ => none,
    dirname := fun p => "dir:" ++ p }

/-- Shorthand for a node with empty diagnostics. -/
def mk (k : NodeKind) : Node := ⟨k, "", 0⟩

/-- The dynamic type tag of a node variant, used to state the coercion
type-equality consequence. -/
def kindTag : NodeKind → String
  | .unit _ _ => "unit"
  | .str _ => "string"
  | .bool _ => "boolean"
  | .null => "null"
  | .literal _ => "literal"
  | .ident _ _ => "ident"
  | .expression _ => "expression"
  | .binop _ _ _ => "binop"
  | .unaryop _ _ => "unaryop"
  | .ternary _ _ _ => "ternary"
  | .property _ _ => "property"
  | .call _ _ => "call"
  | .function _ _ _ => "function"
  | .importStmt _ => "import"
  | .block _ _ => "block"
  | .root _ => "root"
  | .selector _ => "selector"

/-- Store extension: the second store keeps every entry of the first
unchanged and is at least as long. -/
def StoreExt (a b : List Node) : Prop :=
  a.length ≤ b.length ∧ ∀ j, j < a.length → b[j]? = a[j]?

/-- The environment contract that coercion produces a node of the type
of the left operand (spec section 4.7). -/
def CoerceToLeft (env : Env) : Prop :=
  ∀ st a b n, env.coerce st a b = .ok n →
    ∀ na, st[a]? = some na → kindTag n.kind = kindTag na.kind

/-- The environment contract that every registered native callable
leaves the return-mode flag as it found it on normal completion. -/
def RetPresEnv (env : Env) : Prop :=
  ∀ name b, (env.functions name = some b ∨ env.bifs name = some b) →
    ∀ s args v s1, b s args = .ok v s1 → s1.ret = s.ret

/-! Concrete example programs used by counterexamples and witnesses. -/

/-- Mixin splice example: m = function with body containing the literal
X; then a statement call of m; then the literal A.
Ids: 0 null, 1 literal X (body statement), 2 body block, 3 empty params
expression, 4 function m, 5 expression wrapping 4, 6 ident m with val 5
(statement 0), 7 empty args expression, 8 statement call of m
(statement 1), 9 literal A (statement 2), 10 root. -/
def c1Store : List Node :=
  [ mk .null,
    mk (.literal "X"),
    mk (.block none [1]),
    mk (.expression []),
    mk (.function "m" 3 2),
    mk (.expression [4]),
    mk (.ident "m" 5),
    mk (.expression []),
    mk (.call "m" 7),
    mk (.literal "A"),
    mk (.root [6, 8, 9]) ]

def c1Run : EResult := evaluate 60 sampleEnv (initState c1Store 10)

/-- Double-invocation example: f = function f(x = 5){ -x }; a = f() + 0;
b = f() + 0.
Ids: 0 null, 1 unit 5 (the declared default value node), 2 param ident
x with val 1, 3 params expression, 4 body reference ident x, 5
expression wrapping 4, 6 unary minus, 7 body statement expression, 8
body block, 9 function f, 10 expression wrapping 9, 11 ident f
(statement 0), 12 args, 13 call f, 14 unit 0, 15 binop plus, 16
expression, 17 ident a (statement 1), 18 args, 19 call f, 20 unit 0, 21
binop plus, 22 expression, 23 ident b (statement 2), 24 root. -/
def c2Store : List Node :=
  [ mk .null,
    mk (.unit 5 ""),
    mk (.ident "x" 1),
    mk (.expression [2]),
    mk (.ident "x" 0),
    mk (.expression [4]),
    mk (.unaryop "-" 5),
    mk (.expression [6]),
    mk (.block none [7]),
    mk (.function "f" 3 8),
    mk (.expression [9]),
    mk (.ident "f" 10),
    mk (.expression []),
    mk (.call "f" 12),
    mk (.unit 0 ""),
    mk (.binop "+" 13 14),
    mk (.expression [15]),
    mk (.ident "a" 16),
    mk (.expression []),
    mk (.call "f" 18),
    mk (.unit 0 ""),
    mk (.binop "+" 19 20),
    mk (.expression [21]),
    mk (.ident "b" 22),
    mk (.root [11, 17, 23]) ]

def c2Run : EResult := evaluate 120 sampleEnv (initState c2Store 24)

/-- The numeric value bound to a name in the current environment:
resolve the binding, reduce to the first node, read a unit value. -/
def valOf (s : EvState) (name : String) : Option Int :=
  match stackLookup s.frames name with
  | some (some v) =>
    match (firstN s.store v).bind (fun i => s.store[i]?) with
    | some n =>
      match n.kind with
      | .unit x _ => some x
      | _ => none
    | none => none
  | _ => none

def resultValOf (r : EResult) (name : String) : Option Int :=
  match r with
  | .ok _ s => valOf s name
  | _ => none

def resultRootNodes (r : EResult) : Option (List NodeId) :=
  match r with
  | .ok _ s => (s.store[s.rootId]?).bind nodesOf
  | _ => none

def resultVal (r : EResult) : Option (Option NodeId) :=
  match r with
  | .ok v _ => some v
  | _ => none

def resultTrace (r : EResult) : Option (List NodeId) :=
  match r with
  | .ok _ s => some s.trace
  | _ => none

def errStrOf (r : EResult) : Option (Option String) :=
  match r with
  | .err e _ => some e.str
  | _ => none

def resultNodeAt (r : EResult) (id : NodeId) : Option Node :=
  match r with
  | .ok _ s => s.store[id]?
  | _ => none

/-- Import example environment: one importable file foo.styl holding a
single literal statement C. -/
def c3Env : Env :=
  { sampleEnv with
    fileLookup := fun p _ => if p == "foo.styl" then some "foo.styl" else none,
    fileParse := fun f => if f == "foo.styl" then some [mk (.literal "C")] else none }

/-- Import example program: literal A; an import of foo; literal B.
Ids: 0 null, 1 literal A, 2 the import statement, 3 literal B, 4 root. -/
def c3Store : List Node :=
  [ mk .null,
    mk (.literal "A"),
    mk (.importStmt "foo"),
    mk (.literal "B"),
    mk (.root [1, 2, 3]) ]

def c3Run : EResult := evaluate 30 c3Env (initState c3Store 4)

/-- Nested error example: an expression with source outer wrapping a
unary minus with source inner applied to a string, which throws a type
error at the inner dispatch.
Ids: 0 null, 1 string node, 2 argument expression, 3 the unary op
(source inner), 4 the outer expression (source outer). -/
def c6Store : List Node :=
  [ mk .null,
    ⟨.str "x", "strsrc", 3⟩,
    ⟨.expression [1], "argsrc", 2⟩,
    ⟨.unaryop "-" 2, "inner", 1⟩,
    ⟨.expression [3], "outer", 0⟩ ]

def c6State : EvState := initState c6Store 4

def c6RunR : EResult := visit 20 sampleEnv c6State 4

def c6Err : EvalError :=
  match c6RunR with
  | .err e _ => e
  | _ => ⟨"", none, none⟩

def c6ErrState : EvState :=
  match c6RunR with
  | .err _ s => s
  | _ => initState [] 0

/-- Ternary example: condition true, taken branch the literal T, untaken
branch an assignment of y.
Ids: 0 null, 1 bool true, 2 unit 1, 3 expression, 4 ident y (the
untaken assignment), 5 literal T (the taken branch). -/
def c5Store : List Node :=
  [ mk .null,
    mk (.bool true),
    mk (.unit 1 ""),
    mk (.expression [2]),
    mk (.ident "y" 3),
    mk (.literal "T") ]

def c5State : EvState := initState c5Store 0

/-- Unresolved call example: a call to the name g with one argument
expression.
Ids: 0 null, 1 unit 7, 2 args expression, 3 the call. -/
def c7Store : List Node :=
  [ mk .null,
    mk (.unit 7 ""),
    mk (.expression [1]),
    mk (.call "g" 2) ]

def c7State : EvState := initState c7Store 3

/-- Non-callable call example: the name a is bound to an expression
holding a unit, and a() is called.
Ids: 0 null, 1 unit 5, 2 expression wrapping 1, 3 args expression, 4
the call of a. -/
def c10Store : List Node :=
  [ mk .null,
    mk (.unit 5 ""),
    mk (.expression [1]),
    mk (.expression []),
    mk (.call "a" 3) ]

def c10State : EvState :=
  let s := initState c10Store 4
  scopeAdd s "a" (some 2)

/-- Required-argument example: f = function f(x){ x } with the parameter
default being the null node, called with no arguments.
Ids: 0 null, 1 param ident x with val 0 (no default), 2 params
expression, 3 body reference ident x, 4 body statement expression, 5
body block, 6 function f, 7 args expression. -/
def c8Store : List Node :=
  [ mk .null,
    mk (.ident "x" 0),
    mk (.expression [1]),
    mk (.ident "x" 0),
    mk (.expression [3]),
    mk (.block none [4]),
    mk (.function "f" 2 5),
    mk (.expression []) ]

def c8State : EvState := initState c8Store 0

/-- Binary operation example store: a unit 2 of type px and a bare
unit 3, operands of a plus operation.
Ids: 0 null, 1 unit 2 px, 2 unit 3. -/
def c4Store : List Node :=
  [ mk .null,
    ⟨.unit 2 "px", "", 0⟩,
    mk (.unit 3 "") ]

def c4State : EvState := initState c4Store 0

def resultLookup (r : EResult) (name : String) : Option (Option (Option NodeId)) :=
  match r with
  | .ok _ s => some (stackLookup s.frames name)
  | _ => none

/-- The store after cloning the body of the function in the
required-argument program: the clone of the body reference ident, its
expression, and the body block occupy ids 8, 9 and 10. -/
def c8CloneStore : List Node :=
  c8Store ++ [mk (.ident "x" 0), mk (.expression [8]), mk (.block none [9])]

def c8Prelude : EvState := invokePrelude c8State 10 c8CloneStore

/-- The store after the parameter clone of the required-argument
program: the clone of the parameter ident occupies id 12. -/
def c8St2 : List Node := c8Prelude.store ++ [mk (.ident "x" 0)]

def c8ErrState : EvState := setIdentVal { c8Prelude with store := c8St2 } 12 0

/-- The store after cloning the parameter ident of the double-invocation
program: the clone of the default unit and of the parameter ident
occupy ids 25 and 26. -/
def c2BindStore : List Node := c2Store ++ [mk (.unit 5 ""), mk (.ident "x" 25)]

/-- The side condition of a job for return-mode preservation: a builtin
embedded in a job must itself leave the flag unchanged on normal
completion (every builtin reached during evaluation comes from the
environment tables, where RetPresEnv guarantees this). -/
def JobRetOK : Job → Prop
  | .invokeBIJob b _ => ∀ (s : EvState) args v s1, b s args = .ok v s1 → s1.ret = s.ret
  | _ => True

/-! ## Theorems -/

/-- C1, counterexample.  Evaluating the mixin program of c1Store: in the
final root node sequence [5, 0, 9, 11], slot 0 holds the evaluated
definition, slot 1 (the call site) holds the null node 0, slot 2 holds
the original trailing statement 9 (the literal A), and the spliced body
statement 11 (the clone of the literal X) sits at index 3, after the
trailing statement — not at the position of the call as the claim
states. -/
theorem c1_counterexample :
    resultRootNodes c1Run = some [5, 0, 9, 11] ∧
    resultVal c1Run = some (some 10) ∧
    resultNodeAt c1Run 11 = some (mk (.literal "X")) ∧
    resultNodeAt c1Run 9 = some (mk (.literal "A")) := by
  refine ⟨?_, ?_, ?_, ?_⟩ <;> rfl

/-- C1 (amended): invoke applies the dual return-versus-splice policy:
in value-returning mode the invocation yields exactly the last node of
the statement sequence of the evaluated body with no splicing, and
otherwise every statement node of the evaluated body is appended, in
original order, to the END of the node sequence of the block of the
enclosing frame (not at the position of the call), and the call site
itself reduces to the null node. -/
theorem c1_invoke_policy (s : EvState) (bodyId : NodeId) (bodyN : Node)
    (bns : List NodeId) (fr : Frame) (bn : Node) (cns : List NodeId)
    (h1 : s.store[bodyId]? = some bodyN) (h2 : nodesOf bodyN = some bns) :
    (s.ret = true → invoke s bodyId = .ok bns.getLast? s) ∧
    (s.ret = false → s.frames.head? = some fr → s.store[fr.blockId]? = some bn →
      nodesOf bn = some cns →
      invoke s bodyId = .ok (some 0) (setStore s fr.blockId (setNodes bn (cns ++ bns)))) := by
  constructor
  · intro hr
    simp [invoke, h1, h2, hr]
  · intro hr hf hb hn
    simp [invoke, h1, h2, hr, hf, hb, hn]

/-- C1 witness: the invoke policy applied to the mixin program store, in
return mode and in statement (mixin) mode. -/
theorem c1_invoke_policy_witness :
    invoke { initState c1Store 10 with ret := true } 2 =
      .ok (some 1) { initState c1Store 10 with ret := true } ∧
    invoke (initState c1Store 10) 2 =
      .ok (some 0) (setStore (initState c1Store 10) 10
        (setNodes (mk (.root [6, 8, 9])) ([6, 8, 9] ++ [1]))) :=
  ⟨(c1_invoke_policy { initState c1Store 10 with ret := true } 2 (mk (.block none [1]))
      [1] ⟨10, []⟩ (mk (.root [6, 8, 9])) [6, 8, 9] (by decide) (by decide)).1 rfl,
   (c1_invoke_policy (initState c1Store 10) 2 (mk (.block none [1]))
      [1] ⟨10, []⟩ (mk (.root [6, 8, 9])) [6, 8, 9] (by decide) (by decide)).2
      rfl rfl (by decide) (by decide)⟩

/-- C3: visiting an import whose path does not end in .css splices the
parsed statements of the located file into the root statement sequence
immediately after the current root index, leaves every root statement
at or before that index (and every other store entry) unchanged, and
reduces the import node to the null node; when the path search finds no
file, evaluation fails with the import-not-found error. -/
theorem c3_import_splice (env : Env) (s : EvState) (id : NodeId) (path : String)
    (rootN : Node) (ns : List NodeId)
    (hcss : path.endsWith ".css" = false)
    (hroot : s.store[s.rootId]? = some rootN)
    (hns : nodesOf rootN = some ns) :
    (∀ found parsed newIds ns1,
      env.fileLookup (path ++ ".styl")
        (s.paths ++ (match s.importPath with | some r => [r] | none => [])) = some found →
      env.fileParse found = some parsed →
      newIds = (List.range parsed.length).map (fun k => s.store.length + k) →
      ns1 = ns.take (s.rootIndex + 1) ++ newIds ++ ns.drop (s.rootIndex + 1) →
      visitImport env s id path =
        .ok (some 0)
          (setStore { s with importPath := some (env.dirname found),
                             store := s.store ++ parsed }
            s.rootId (setNodes rootN ns1)) ∧
      (∀ j, j ≤ s.rootIndex → j < ns.length → ns1[j]? = ns[j]?) ∧
      (∀ k, k < s.store.length → k ≠ s.rootId →
        (setStore { s with importPath := some (env.dirname found),
                           store := s.store ++ parsed }
          s.rootId (setNodes rootN ns1)).store[k]? = s.store[k]?)) ∧
    (env.fileLookup (path ++ ".styl")
        (s.paths ++ (match s.importPath with | some r => [r] | none => [])) = none →
      visitImport env s id path =
        .err ⟨"failed to locate @import file " ++ (path ++ ".styl"), none, none⟩ s) := by
  constructor
  · intro found parsed newIds ns1 hlook hparse hnew hns1
    refine ⟨?_, ?_, ?_⟩
    · simp only [visitImport, hcss, Bool.false_eq_true, if_false, hlook, hparse, hroot, hns,
        hnew, hns1]
    · intro j hj1 hj2
      subst hns1
      have hlt : j < (ns.take (s.rootIndex + 1)).length := by
        simp only [List.length_take]
        omega
      have hlt2 : j < (ns.take (s.rootIndex + 1) ++ newIds).length := by
        simp only [List.length_append]
        omega
      rw [List.getElem?_append, if_pos hlt2, List.getElem?_append, if_pos hlt,
        List.getElem?_take, if_pos (by omega)]
    · intro k hk1 hk2
      simp only [setStore]
      rw [List.getElem?_set_ne (by omega), List.getElem?_append, if_pos hk1]
  · intro hlook
    simp only [visitImport, hcss, Bool.false_eq_true, if_false, hlook, typeError]

/-- C3 witness: the splice theorem applied to the import program
(an import at root index 1 between two literals), together with the
outcome of the full evaluation: the file statements land right after
the import slot (which holds the null node), and the visit order
recorded in the trace shows the spliced statement 5 visited before the
original trailing statement 3, in the same top-level pass. -/
theorem c3_import_splice_witness :
    visitImport c3Env { initState c3Store 4 with rootIndex := 1 } 2 "foo" =
      .ok (some 0) (setStore { { initState c3Store 4 with rootIndex := 1 } with
          importPath := some (c3Env.dirname "foo.styl"),
          store := c3Store ++ [mk (.literal "C")] } 4
        (setNodes (mk (.root [1, 2, 3])) ([1, 2] ++ [5] ++ [3]))) ∧
    resultRootNodes c3Run = some [1, 0, 5, 3] ∧
    resultTrace c3Run = some [4, 1, 2, 5, 3] :=
  ⟨((c3_import_splice c3Env { initState c3Store 4 with rootIndex := 1 } 2 "foo"
      (mk (.root [1, 2, 3])) [1, 2, 3] (by decide) (by decide) (by decide)).1
      "foo.styl" [mk (.literal "C")] [5] ([1, 2] ++ [5] ++ [3])
      (by decide) (by decide) (by decide) (by decide)).1,
   by rfl, by rfl⟩

/-- C5: a ternary visits only the branch selected by the boolean
reduction of its condition; the result and final state never depend on
the untaken branch, which is universally quantified on both sides, so
no side effect of the untaken branch can occur. -/
theorem c5_ternary_taken_only (fuel : Nat) (env : Env) (s : EvState)
    (c t e c0 : NodeId) (s1 : EvState)
    (hc : visit fuel env s c = .ok (some c0) s1) :
    (env.toBool s1.store c0 = true →
      visitTernary (fuel + 1) env s c t e = visit fuel env s1 t) ∧
    (env.toBool s1.store c0 = false →
      visitTernary (fuel + 1) env s c t e = visit fuel env s1 e) := by
  have hc' : step fuel env s (.visitJob c) = .ok (some c0) s1 := hc
  constructor <;> intro hb <;>
    simp only [visitTernary, visit, step, hc', hb, Bool.false_eq_true, if_true, if_false]

/-- C6: every error escaping a dispatch of visit carries a source
excerpt and a frame-stack trace, and the decoration step never
overwrites decoration already present, so an error bubbling through
nested dispatches keeps the source and trace attached at the innermost
origin. -/
theorem c6_error_decoration (fuel : Nat) (env : Env) (s : EvState) (id : NodeId)
    (n : Node) (e : EvalError) (s1 : EvState) (e0 : EvalError) (src tr : String)
    (hn : s.store[id]? = some n)
    (herr : visit (fuel + 1) env s id = .err e s1) :
    (e.str.isSome ∧ e.stylusStack.isSome) ∧
    (e0.str.isSome → (decorate e0 src tr).str = e0.str) ∧
    (e0.stylusStack.isSome → (decorate e0 src tr).stylusStack = e0.stylusStack) := by
  refine ⟨?_, ?_, ?_⟩
  · simp only [visit, step, hn] at herr
    split at herr
    · injection herr with h1 h2
      subst h1
      simp [decorate]
    · rename_i heq
      exact absurd herr (heq e s1)
  · intro h0
    obtain ⟨x, hx⟩ := Option.isSome_iff_exists.mp h0
    simp [decorate, hx]
  · intro h0
    obtain ⟨x, hx⟩ := Option.isSome_iff_exists.mp h0
    simp [decorate, hx]

/-- C7: a call whose name resolves to no binding in the lexical
environment, the external function table, or the builtin registry is
returned as the same call node with its argument expression visited and
its name and shape otherwise unchanged, and no error is raised. -/
theorem c7_literal_passthrough (fuel : Nat) (env : Env) (s : EvState) (id : NodeId)
    (name : String) (argsId a : NodeId) (s1 : EvState)
    (hlook : lookupFunction env s name = none)
    (hargs : visit fuel env s argsId = .ok (some a) s1) :
    visitCall (fuel + 2) env s id name argsId = .ok (some id) (setCallArgs s1 id a) ∧
    (∀ cn nm ag, s1.store[id]? = some cn → cn.kind = .call nm ag →
      (setCallArgs s1 id a).store[id]? = some { cn with kind := .call nm a }) := by
  constructor
  · have hargs' : step fuel env s (.visitJob argsId) = .ok (some a) s1 := hargs
    simp only [visitCall, step, hlook, hargs']
  · intro cn nm ag h1 h2
    have hlt : id < s1.store.length := (List.getElem?_eq_some.mp h1).1
    simp [setCallArgs, h1, h2, setStore, List.getElem?_set_self hlt]

/-- C10: a call whose name resolves in the lexical environment to a
value that, after the single expression unwrap, is neither a native
callable nor a user function definition evaluates the call arguments
and then yields no node at all: no error is raised and the call is not
passed through as a literal call. -/
theorem c10_non_callable_undefined (fuel : Nat) (env : Env) (s : EvState)
    (id : NodeId) (name : String) (argsId vid fnid : NodeId)
    (av : Option NodeId) (s1 : EvState)
    (h1 : stackLookup s.frames name = some (some vid))
    (h2 : unwrap s.store vid = some fnid)
    (h3 : visit fuel env { s with calling := some name, ret := true } argsId = .ok av s1)
    (h4 : (s1.store[fnid]?).all (fun n => !(isFunctionKind n.kind)) = true) :
    visitCall (fuel + 1) env s id name argsId = .ok none { s1 with ret := s.ret } := by
  have hl : lookupFunction env s name = some (.node vid) := by
    simp [lookupFunction, h1]
  have h3' : step fuel env { s with calling := some name, ret := true } (.visitJob argsId) =
      .ok av s1 := h3
  simp only [visitCall, step, hl, h2, Option.map_some', h3']
  cases hf : s1.store[fnid]? with
  | none => simp
  | some n =>
    rw [hf] at h4
    simp only [Option.all_some] at h4
    cases hk : n.kind <;> simp_all [isFunctionKind]

/-- C5 witness: in the ternary program the condition reduces to true,
the ternary reduces to the visit of the taken branch alone, the result
is the taken literal, and no binding for the name y assigned by the
untaken branch exists afterwards. -/
theorem c5_ternary_taken_only_witness :
    sampleEnv.toBool c5State.store 1 = true ∧
    visitTernary 6 sampleEnv c5State 1 5 4 =
      visit 5 sampleEnv { c5State with lineno := 0, trace := [1] } 5 ∧
    resultVal (visitTernary 6 sampleEnv c5State 1 5 4) = some (some 5) ∧
    resultLookup (visitTernary 6 sampleEnv c5State 1 5 4) "y" = some none :=
  ⟨by decide,
   (c5_ternary_taken_only 5 sampleEnv c5State 1 5 4 1
      { c5State with lineno := 0, trace := [1] } (by decide)).1 (by decide),
   by decide, by decide⟩

/-- C6 witness: the nested error program fails, and the error that
reaches the outermost dispatch still carries the source excerpt of the
innermost origin (the unary node with source inner, not the enclosing
expression with source outer) and the frame-stack rendering. -/
theorem c6_error_decoration_witness :
    visit 20 sampleEnv c6State 4 = .err c6Err c6ErrState ∧
    c6Err.str = some "inner" ∧
    c6Err.stylusStack = some "at block 4" ∧
    (c6Err.str.isSome ∧ c6Err.stylusStack.isSome) :=
  ⟨by decide, by decide, by decide,
   (c6_error_decoration 19 sampleEnv c6State 4 ⟨.expression [3], "outer", 0⟩ c6Err
      c6ErrState ⟨"m", none, none⟩ "s" "t" (by decide) (by decide)).1⟩

/-- C7 witness: calling the unresolved name g returns the same call
node with its argument expression visited and the call shape otherwise
unchanged. -/
theorem c7_literal_passthrough_witness :
    visitCall 7 sampleEnv c7State 3 "g" 2 =
      .ok (some 3) (setCallArgs { c7State with lineno := 0, trace := [2, 1] } 3 2) ∧
    resultNodeAt (visitCall 7 sampleEnv c7State 3 "g" 2) 3 = some (mk (.call "g" 2)) :=
  ⟨(c7_literal_passthrough 5 sampleEnv c7State 3 "g" 2 2
      { c7State with lineno := 0, trace := [2, 1] } (by rfl) (by decide)).1,
   by decide⟩

/-- C10 witness: calling the name a, bound to an expression holding a
numeric unit, evaluates the arguments and returns no node at all. -/
theorem c10_non_callable_undefined_witness :
    visitCall 6 sampleEnv c10State 4 "a" 3 =
      .ok none { { c10State with calling := some "a", ret := true, trace := [3] } with
        ret := c10State.ret } :=
  c10_non_callable_undefined 5 sampleEnv c10State 4 "a" 3 2 1 (some 3)
    { c10State with calling := some "a", ret := true, trace := [3] }
    (by decide) (by decide) (by decide) (by decide)

/-- The sample coercion capability satisfies the coerce-to-left-type
contract. -/
theorem sampleCoerce_coerceToLeft : CoerceToLeft sampleEnv := by
  intro st a b n h na hna
  simp only [sampleEnv] at h
  unfold sampleCoerce at h
  rw [hna] at h
  split at h
  · split at h <;> cases h <;> simp_all [kindTag]
  · cases h

/-- C4: for a binary operation whose operator is not the pseudo
operator is defined and not one of || and && and is a, after both
operands are visited in return mode and reduced to their first values,
the right operand is passed through the coercion capability of the left
operand, the operate capability of the left operand is applied to the
coerced right operand, and the resulting node is allocated and itself
re-visited; under the coerce-to-left-type contract the coerced right
operand has the type of the left operand. -/
theorem c4_binop_coercion (fuel : Nat) (env : Env) (s : EvState) (op : String)
    (l r : NodeId) (lv rv : Option NodeId) (s1 s2 : EvState) (lf rf : NodeId)
    (rn res : Node)
    (hop1 : (op == "is defined") = false)
    (hop2 : (["||", "&&", "is a"].contains op) = false)
    (hl : visit fuel env { s with ret := true } l = .ok lv s1)
    (hlf : lv.bind (firstN s1.store) = some lf)
    (hr : visit fuel env s1 r = .ok rv s2)
    (hrf : rv.bind (firstN s2.store) = some rf)
    (hco : env.coerce s2.store lf rf = .ok rn)
    (hope : env.operate s2.store lf op rn = .ok res) :
    visitBinOp (fuel + 1) env s op l r =
      visit fuel env { s2 with ret := s.ret, store := s2.store ++ [res] } s2.store.length ∧
    (CoerceToLeft env → ∀ na, s2.store[lf]? = some na →
      kindTag rn.kind = kindTag na.kind) := by
  constructor
  · have hl' : step fuel env { s with ret := true } (.visitJob l) = .ok lv s1 := hl
    have hr' : step fuel env s1 (.visitJob r) = .ok rv s2 := hr
    simp only [visitBinOp, visit, step, hop1, Bool.false_eq_true, if_false, hl', hlf, hr',
      hrf, hop2, hco, hope, alloc]
  · intro hC na hna
    exact hC _ _ _ _ hco na hna

/-- C4 witness: the coercion policy applied to 2px + 3: the bare right
unit is coerced to the px type of the left operand before the operate
capability runs, the allocated result 5px is re-visited, and the
coerced operand has the type tag of the left operand. -/
theorem c4_binop_coercion_witness :
    visitBinOp 6 sampleEnv c4State "+" 1 2 =
      visit 5 sampleEnv
        { c4State with
            lineno := 0, trace := [1, 2], store := c4Store ++ [⟨.unit 5 "px", "", 0⟩] } 3 ∧
    kindTag (NodeKind.unit 3 "px") = kindTag (NodeKind.unit 2 "px") := by
  have H := c4_binop_coercion 5 sampleEnv c4State "+" 1 2 (some 1) (some 2)
    { c4State with ret := true, lineno := 0, trace := [1] }
    { c4State with ret := true, lineno := 0, trace := [1, 2] } 1 2
    ⟨.unit 3 "px", "", 0⟩ ⟨.unit 5 "px", "", 0⟩
    (by decide) (by decide) (by decide) (by decide) (by decide) (by decide)
    (by rfl) (by rfl)
  exact ⟨H.1, H.2 sampleCoerce_coerceToLeft ⟨.unit 2 "px", "", 0⟩ (by decide)⟩

/-- C2, counterexample.  The program binds f = function f(x = 5){ -x }
and evaluates a = f() + 0 and then b = f() + 0.  The two invocations
are identical, yet a is -5 while b is 5: the first call negated the
shared declared default value node (id 1) in place, and the second
call bound the same node again and observed the mutation, which the
claim says can never happen.  (If the default were cloned per
invocation, both calls would yield -5.) -/
theorem c2_counterexample :
    c2Store[1]? = some (mk (.unit 5 "")) ∧
    resultValOf c2Run "a" = some (-5) ∧
    resultValOf c2Run "b" = some 5 := by
  refine ⟨?_, ?_, ?_⟩ <;> rfl

theorem storeExt_refl (st : List Node) : StoreExt st st :=
  ⟨le_refl _, fun _ _ => rfl⟩

theorem storeExt_trans {a b c : List Node} (h1 : StoreExt a b) (h2 : StoreExt b c) :
    StoreExt a c :=
  ⟨le_trans h1.1 h2.1, fun j hj => by rw [h2.2 j (lt_of_lt_of_le hj h1.1), h1.2 j hj]⟩

theorem storeExt_allocN (st : List Node) (n : Node) : StoreExt st (st ++ [n]) :=
  ⟨by simp, fun j hj => by rw [List.getElem?_append, if_pos hj]⟩

/-- Cloning never touches an existing store entry: the output store
extends the input store. -/
theorem cloneA_ext :
    ∀ fuel st ids rs st1, cloneA fuel st ids = some (rs, st1) → StoreExt st st1 := by
  intro fuel
  induction fuel with
  | zero =>
    intro st ids rs st1 h
    simp [cloneA] at h
  | succ f ih =>
    intro st ids rs st1 h
    cases ids with
    | nil =>
      simp only [cloneA] at h
      injection h with h2
      injection h2 with h3 h4
      subst h4
      exact storeExt_refl st
    | cons id rest =>
      simp only [cloneA, allocN] at h
      cases hn : st[id]? with
      | none => simp [hn] at h
      | some n =>
        simp only [hn] at h
        obtain ⟨k, nsrc, nln⟩ := n
        cases k <;> dsimp only at h
        case null =>
          split at h
          · rename_i cs st2 heq2
            injection h with h2
            injection h2 with h3 h4
            subst h4
            exact ih _ _ _ _ heq2
          · cases h
        case unit v t =>
          split at h
          · rename_i cs st2 heq2
            injection h with h2
            injection h2 with h3 h4
            subst h4
            exact storeExt_trans (storeExt_allocN st _) (ih _ _ _ _ heq2)
          · cases h
        case str v =>
          split at h
          · rename_i cs st2 heq2
            injection h with h2
            injection h2 with h3 h4
            subst h4
            exact storeExt_trans (storeExt_allocN st _) (ih _ _ _ _ heq2)
          · cases h
        case bool v =>
          split at h
          · rename_i cs st2 heq2
            injection h with h2
            injection h2 with h3 h4
            subst h4
            exact storeExt_trans (storeExt_allocN st _) (ih _ _ _ _ heq2)
          · cases h
        case literal v =>
          split at h
          · rename_i cs st2 heq2
            injection h with h2
            injection h2 with h3 h4
            subst h4
            exact storeExt_trans (storeExt_allocN st _) (ih _ _ _ _ heq2)
          · cases h
        case importStmt p =>
          split at h
          · rename_i cs st2 heq2
            injection h with h2
            injection h2 with h3 h4
            subst h4
            exact storeExt_trans (storeExt_allocN st _) (ih _ _ _ _ heq2)
          · cases h
        case ident nm v =>
          cases hin : cloneA f st [v] with
          | none => simp [hin] at h
          | some pr =>
            obtain ⟨vs, stA⟩ := pr
            match vs with
            | [] => simp [hin] at h
            | v2 :: tail =>
              simp only [hin] at h
              split at h
              · rename_i cs st2 heq2
                injection h with h2
                injection h2 with h3 h4
                subst h4
                exact storeExt_trans (ih _ _ _ _ hin)
                  (storeExt_trans (storeExt_allocN stA _) (ih _ _ _ _ heq2))
              · cases h
        case unaryop op e =>
          cases hin : cloneA f st [e] with
          | none => simp [hin] at h
          | some pr =>
            obtain ⟨vs, stA⟩ := pr
            match vs with
            | [] => simp [hin] at h
            | e2 :: tail =>
              simp only [hin] at h
              split at h
              · rename_i cs st2 heq2
                injection h with h2
                injection h2 with h3 h4
                subst h4
                exact storeExt_trans (ih _ _ _ _ hin)
                  (storeExt_trans (storeExt_allocN stA _) (ih _ _ _ _ heq2))
              · cases h
        case property nm e =>
          cases hin : cloneA f st [e] with
          | none => simp [hin] at h
          | some pr =>
            obtain ⟨vs, stA⟩ := pr
            match vs with
            | [] => simp [hin] at h
            | e2 :: tail =>
              simp only [hin] at h
              split at h
              · rename_i cs st2 heq2
                injection h with h2
                injection h2 with h3 h4
                subst h4
                exact storeExt_trans (ih _ _ _ _ hin)
                  (storeExt_trans (storeExt_allocN stA _) (ih _ _ _ _ heq2))
              · cases h
        case call nm a =>
          cases hin : cloneA f st [a] with
          | none => simp [hin] at h
          | some pr =>
            obtain ⟨vs, stA⟩ := pr
            match vs with
            | [] => simp [hin] at h
            | a2 :: tail =>
              simp only [hin] at h
              split at h
              · rename_i cs st2 heq2
                injection h with h2
                injection h2 with h3 h4
                subst h4
                exact storeExt_trans (ih _ _ _ _ hin)
                  (storeExt_trans (storeExt_allocN stA _) (ih _ _ _ _ heq2))
              · cases h
        case selector b =>
          cases hin : cloneA f st [b] with
          | none => simp [hin] at h
          | some pr =>
            obtain ⟨vs, stA⟩ := pr
            match vs with
            | [] => simp [hin] at h
            | b2 :: tail =>
              simp only [hin] at h
              split at h
              · rename_i cs st2 heq2
                injection h with h2
                injection h2 with h3 h4
                subst h4
                exact storeExt_trans (ih _ _ _ _ hin)
                  (storeExt_trans (storeExt_allocN stA _) (ih _ _ _ _ heq2))
              · cases h
        case binop op l r =>
          cases hin : cloneA f st [l, r] with
          | none => simp [hin] at h
          | some pr =>
            obtain ⟨vs, stA⟩ := pr
            match vs with
            | [] => simp [hin] at h
            | [l2] => simp [hin] at h
            | l2 :: r2 :: tail =>
              simp only [hin] at h
              split at h
              · rename_i cs st2 heq2
                injection h with h2
                injection h2 with h3 h4
                subst h4
                exact storeExt_trans (ih _ _ _ _ hin)
                  (storeExt_trans (storeExt_allocN stA _) (ih _ _ _ _ heq2))
              · cases h
        case function nm p b =>
          cases hin : cloneA f st [p, b] with
          | none => simp [hin] at h
          | some pr =>
            obtain ⟨vs, stA⟩ := pr
            match vs with
            | [] => simp [hin] at h
            | [p2] => simp [hin] at h
            | p2 :: b2 :: tail =>
              simp only [hin] at h
              split at h
              · rename_i cs st2 heq2
                injection h with h2
                injection h2 with h3 h4
                subst h4
                exact storeExt_trans (ih _ _ _ _ hin)
                  (storeExt_trans (storeExt_allocN stA _) (ih _ _ _ _ heq2))
              · cases h
        case ternary c t e =>
          cases hin : cloneA f st [c, t, e] with
          | none => simp [hin] at h
          | some pr =>
            obtain ⟨vs, stA⟩ := pr
            match vs with
            | [] => simp [hin] at h
            | [c2] => simp [hin] at h
            | [c2, t2] => simp [hin] at h
            | c2 :: t2 :: e2 :: tail =>
              simp only [hin] at h
              split at h
              · rename_i cs st2 heq2
                injection h with h2
                injection h2 with h3 h4
                subst h4
                exact storeExt_trans (ih _ _ _ _ hin)
                  (storeExt_trans (storeExt_allocN stA _) (ih _ _ _ _ heq2))
              · cases h
        case expression ns =>
          cases hin : cloneA f st ns with
          | none => simp [hin] at h
          | some pr =>
            obtain ⟨ns2, stA⟩ := pr
            simp only [hin] at h
            split at h
            · rename_i cs st2 heq2
              injection h with h2
              injection h2 with h3 h4
              subst h4
              exact storeExt_trans (ih _ _ _ _ hin)
                (storeExt_trans (storeExt_allocN stA _) (ih _ _ _ _ heq2))
            · cases h
        case block par ns =>
          cases hin : cloneA f st ns with
          | none => simp [hin] at h
          | some pr =>
            obtain ⟨ns2, stA⟩ := pr
            simp only [hin] at h
            split at h
            · rename_i cs st2 heq2
              injection h with h2
              injection h2 with h3 h4
              subst h4
              exact storeExt_trans (ih _ _ _ _ hin)
                (storeExt_trans (storeExt_allocN stA _) (ih _ _ _ _ heq2))
            · cases h
        case root ns =>
          cases hin : cloneA f st ns with
          | none => simp [hin] at h
          | some pr =>
            obtain ⟨ns2, stA⟩ := pr
            simp only [hin] at h
            split at h
            · rename_i cs st2 heq2
              injection h with h2
              injection h2 with h3 h4
              subst h4
              exact storeExt_trans (ih _ _ _ _ hin)
                (storeExt_trans (storeExt_allocN stA _) (ih _ _ _ _ heq2))
            · cases h

/-- C2 (amended): the body block of an invoked function is deep-cloned
before evaluation, and cloning only allocates fresh nodes, never
changing an existing store entry, so the clone itself cannot corrupt
the stored definition; each parameter node is cloned per invocation,
but the value bound for a parameter that receives no positional
argument is the declared default value node of the original definition
itself, not a clone, so in-place mutation of that node by one
invocation is observed by later invocations. -/
theorem c2_clone_and_default_sharing :
    (∀ fuel st ids rs st1, cloneA fuel st ids = some (rs, st1) → StoreExt st st1) ∧
    (∀ fuel (s : EvState) pid rest argNodes i fname pn pname pval cid st1,
      s.store[pid]? = some pn → pn.kind = .ident pname pval →
      argNodes[i]? = none →
      cloneN fuel s.store pid = some (cid, st1) →
      (match (setIdentVal { s with store := st1 } cid pval).store[pval]? with
        | some vn => ¬ vn.kind = NodeKind.null
        | none => True) →
      bindParams fuel s (pid :: rest) argNodes i fname =
        bindParams fuel
          (scopeAdd (setIdentVal { s with store := st1 } cid pval) pname (some pval))
          rest argNodes (i + 1) fname) := by
  constructor
  · exact cloneA_ext
  · intro fuel s pid rest argNodes i fname pn pname pval cid st1 h1 h2 h3 h4 h5
    simp only [bindParams, h1, h2, h3, Option.getD_none, h4]
    cases hv : (setIdentVal { s with store := st1 } cid pval).store[pval]? with
    | none => simp only [hv]
    | some vn =>
      simp only [hv] at h5 ⊢
      cases hk : vn.kind <;> simp only [hk] at h5 ⊢
      case null => exact absurd trivial h5

/-- C2 (amended) witness: the store extension for the clone of the body
block of f in the double-invocation program, the parameter binding of f
called with no arguments reducing to a scope binding whose value is the
ORIGINAL default node id 1, and the binding visible in the resulting
frame. -/
theorem c2_clone_and_default_sharing_witness :
    StoreExt c2Store (c2Store ++ [mk (.ident "x" 0), mk (.expression [25]),
      mk (.unaryop "-" 26), mk (.expression [27]), mk (.block none [28])]) ∧
    bindParams 10 (initState c2Store 24) [2] [] 0 "f" =
      bindParams 10 (scopeAdd (setIdentVal
        { initState c2Store 24 with store := c2BindStore } 26 1) "x" (some 1)) [] [] 1 "f" ∧
    resultLookup (bindParams 10 (initState c2Store 24) [2] [] 0 "f") "x" =
      some (some (some 1)) :=
  ⟨c2_clone_and_default_sharing.1 10 c2Store [8]
      [29] (c2Store ++ [mk (.ident "x" 0), mk (.expression [25]),
        mk (.unaryop "-" 26), mk (.expression [27]), mk (.block none [28])]) (by rfl),
   c2_clone_and_default_sharing.2 10 (initState c2Store 24) 2 [] [] 0 "f"
      (mk (.ident "x" 1)) "x" 1 26 c2BindStore
      (by rfl) (by rfl) (by rfl) (by rfl)
      (show ¬ (mk (.unit 5 "")).kind = NodeKind.null by decide),
   by rfl⟩

/-- State-helper projection lemmas: the store mutation and frame
helpers never touch the ghost trace or the return-mode flag. -/
theorem trace_setStore (s : EvState) (id : NodeId) (n : Node) :
    (setStore s id n).trace = s.trace := rfl

theorem ret_setStore (s : EvState) (id : NodeId) (n : Node) :
    (setStore s id n).ret = s.ret := rfl

theorem trace_setIdentVal (s : EvState) (id v : NodeId) :
    (setIdentVal s id v).trace = s.trace := by
  unfold setIdentVal
  split
  · split <;> rfl
  · rfl

theorem ret_setIdentVal (s : EvState) (id v : NodeId) :
    (setIdentVal s id v).ret = s.ret := by
  unfold setIdentVal
  split
  · split <;> rfl
  · rfl

theorem trace_scopeAdd (s : EvState) (n : String) (v : Option NodeId) :
    (scopeAdd s n v).trace = s.trace := by
  unfold scopeAdd
  split <;> rfl

theorem ret_scopeAdd (s : EvState) (n : String) (v : Option NodeId) :
    (scopeAdd s n v).ret = s.ret := by
  unfold scopeAdd
  split <;> rfl

theorem trace_setBlockParent (s : EvState) (id p : NodeId) :
    (setBlockParent s id p).trace = s.trace := by
  unfold setBlockParent
  split
  · split <;> rfl
  · rfl

theorem ret_setBlockParent (s : EvState) (id p : NodeId) :
    (setBlockParent s id p).ret = s.ret := by
  unfold setBlockParent
  split
  · split <;> rfl
  · rfl

theorem trace_invokePrelude (s : EvState) (bodyId : NodeId) (st1 : List Node) :
    (invokePrelude s bodyId st1).trace = s.trace := by
  unfold invokePrelude pushFrame alloc
  exact trace_setBlockParent _ _ _

theorem ret_invokePrelude (s : EvState) (bodyId : NodeId) (st1 : List Node) :
    (invokePrelude s bodyId st1).ret = s.ret := by
  unfold invokePrelude pushFrame alloc
  exact ret_setBlockParent _ _ _

theorem ret_writeSlot (s : EvState) (id : NodeId) (i : Nat) (v : Option NodeId) :
    (writeSlot s id i v).ret = s.ret := by
  unfold writeSlot
  split
  · rfl
  · split
    · split <;> rfl
    · rfl

theorem ret_setCallArgs (s : EvState) (id a : NodeId) :
    (setCallArgs s id a).ret = s.ret := by
  unfold setCallArgs
  split
  · split <;> rfl
  · rfl

theorem ret_setPropExpr (s : EvState) (id e : NodeId) :
    (setPropExpr s id e).ret = s.ret := by
  unfold setPropExpr
  split
  · split <;> rfl
  · rfl

theorem ret_setSelectorBlock (s : EvState) (id b : NodeId) :
    (setSelectorBlock s id b).ret = s.ret := by
  unfold setSelectorBlock
  split
  · split <;> rfl
  · rfl

/-- bindParams leaves the ghost trace unchanged on normal completion:
parameter binding visits nothing. -/
theorem bindParams_trace :
    ∀ pids fuel (s : EvState) argNodes i fname v s1,
      bindParams fuel s pids argNodes i fname = .ok v s1 → s1.trace = s.trace := by
  intro pids
  induction pids with
  | nil =>
    intro fuel s argNodes i fname v s1 h
    simp only [bindParams] at h
    injection h with h1 h2
    subst h2
    rfl
  | cons p ps ih =>
    intro fuel s argNodes i fname v s1 h
    simp only [bindParams] at h
    cases hp : s.store[p]? with
    | none => simp only [hp] at h; cases h
    | some pn =>
      simp only [hp] at h
      cases hk : pn.kind <;> simp only [hk] at h <;> try cases h
      case ident nm pv =>
        cases hc : cloneN fuel s.store p with
        | none => simp only [hc] at h; cases h
        | some pr =>
          obtain ⟨cid, st1⟩ := pr
          simp only [hc] at h
          cases hv : (setIdentVal { s with store := st1 }
              cid ((argNodes[i]?).getD pv)).store[(argNodes[i]?).getD pv]? with
          | none =>
            simp only [hv] at h
            rw [ih fuel _ argNodes (i + 1) fname v s1 h, trace_scopeAdd, trace_setIdentVal]
          | some vn =>
            simp only [hv] at h
            cases hkv : vn.kind <;> simp only [hkv] at h <;> try cases h
            all_goals
              rw [ih fuel _ argNodes (i + 1) fname v s1 h, trace_scopeAdd, trace_setIdentVal]

/-- bindParams over a concatenation: a successful prefix continues into
the suffix with the argument index advanced by the prefix length, and
an error in the suffix is the error of the whole. -/
theorem bindParams_err_propagate :
    ∀ pre fuel (s : EvState) post argNodes i fname v1 s1 e s2,
      bindParams fuel s pre argNodes i fname = .ok v1 s1 →
      bindParams fuel s1 post argNodes (i + pre.length) fname = .err e s2 →
      bindParams fuel s (pre ++ post) argNodes i fname = .err e s2 := by
  intro pre
  induction pre with
  | nil =>
    intro fuel s post argNodes i fname v1 s1 e s2 h1 h2
    simp only [bindParams] at h1
    injection h1 with h3 h4
    subst h4
    simpa using h2
  | cons p ps ih =>
    intro fuel s post argNodes i fname v1 s1 e s2 h1 h2
    simp only [bindParams, List.cons_append] at h1 ⊢
    cases hp : s.store[p]? with
    | none => simp only [hp] at h1; cases h1
    | some pn =>
      simp only [hp] at h1 ⊢
      cases hk : pn.kind <;> simp only [hk] at h1 ⊢ <;> try cases h1
      case ident nm pv =>
        cases hc : cloneN fuel s.store p with
        | none => simp only [hc] at h1; cases h1
        | some pr =>
          obtain ⟨cid, st1⟩ := pr
          simp only [hc] at h1 ⊢
          cases hv : (setIdentVal { s with store := st1 }
              cid ((argNodes[i]?).getD pv)).store[(argNodes[i]?).getD pv]? with
          | none =>
            simp only [hv] at h1 ⊢
            refine ih fuel _ post argNodes (i + 1) fname v1 s1 e s2 h1 ?_
            have harith : i + 1 + ps.length = i + (ps.length + 1) := by omega
            rw [harith]
            exact h2
          | some vn =>
            simp only [hv] at h1 ⊢
            cases hkv : vn.kind <;> simp only [hkv] at h1 ⊢ <;> try cases h1
            all_goals
              refine ih fuel _ post argNodes (i + 1) fname v1 s1 e s2 h1 ?_
            all_goals
              have harith : i + 1 + ps.length = i + (ps.length + 1) := by omega
            all_goals
              rw [harith]
            all_goals
              exact h2

/-- C8: invoking a user function for which some declared parameter
receives neither a positional argument nor a non-null declared default
fails with the required-argument error naming the parameter and the
function, raised before the function body is visited (the ghost visit
trace of the error state equals the trace at entry). -/
theorem c8_required_argument (fuel : Nat) (env : Env) (s : EvState) (fnId argsId : NodeId)
    (fnN : Node) (fname : String) (paramsId blockId bodyId : NodeId) (st1 : List Node)
    (bodyN argsN paramsN : Node) (argNodes pre rest : List NodeId) (pid : NodeId)
    (vpre : Option NodeId) (s5 : EvState) (pn : Node) (pname : String) (pval cid : NodeId)
    (st2 : List Node) (vn : Node)
    (hfn : s.store[fnId]? = some fnN)
    (hkind : fnN.kind = .function fname paramsId blockId)
    (hclone : cloneN fuel s.store blockId = some (bodyId, st1))
    (hbodyN : st1[bodyId]? = some bodyN)
    (hargsN : (invokePrelude s bodyId st1).store[argsId]? = some argsN)
    (hargnodes : nodesOf argsN = some argNodes)
    (hparamsN : (invokePrelude s bodyId st1).store[paramsId]? = some paramsN)
    (hpids : nodesOf paramsN = some (pre ++ pid :: rest))
    (hpre : bindParams fuel (invokePrelude s bodyId st1) pre argNodes 0 fname = .ok vpre s5)
    (hpn : s5.store[pid]? = some pn)
    (hpk : pn.kind = .ident pname pval)
    (hnoarg : argNodes[pre.length]? = none)
    (hcl2 : cloneN fuel s5.store pid = some (cid, st2))
    (hnull : (setIdentVal { s5 with store := st2 } cid pval).store[pval]? = some vn)
    (hvn : vn.kind = NodeKind.null) :
    invokeFunction (fuel + 1) env s fnId argsId =
      .err ⟨"argument " ++ pname ++ " required for " ++ fname, none, none⟩
        (setIdentVal { s5 with store := st2 } cid pval) ∧
    (setIdentVal { s5 with store := st2 } cid pval).trace = s.trace := by
  have hhead : bindParams fuel s5 (pid :: rest) argNodes (0 + pre.length) fname =
      .err ⟨"argument " ++ pname ++ " required for " ++ fname, none, none⟩
        (setIdentVal { s5 with store := st2 } cid pval) := by
    have h0 : (0 : Nat) + pre.length = pre.length := by omega
    rw [h0]
    simp only [bindParams, hpn, hpk, hnoarg, Option.getD_none, hcl2, hnull, hvn, typeError]
  have hbind := bindParams_err_propagate pre fuel (invokePrelude s bodyId st1) (pid :: rest)
    argNodes 0 fname vpre s5 _ _ hpre hhead
  constructor
  · simp only [invokeFunction, step, hfn, hkind, hclone, hbodyN, hargsN, hargnodes,
      hparamsN, hpids, hbind]
  · rw [trace_setIdentVal,
      bindParams_trace pre fuel (invokePrelude s bodyId st1) argNodes 0 fname vpre s5 hpre,
      trace_invokePrelude]

/-- C8 witness: the one-parameter function f(x) with no default, called
with no arguments, fails with the required-argument error naming x and
f, and the visit trace is untouched (the cloned body was never
visited). -/
theorem c8_required_argument_witness :
    invokeFunction 11 sampleEnv c8State 6 7 =
      .err ⟨"argument x required for f", none, none⟩ c8ErrState ∧
    c8ErrState.trace = c8State.trace :=
  c8_required_argument 10 sampleEnv c8State 6 7 (mk (.function "f" 2 5)) "f" 2 5 10
    c8CloneStore (mk (.block none [9])) (mk (.expression [])) (mk (.expression [1]))
    [] [] [] 1 none c8Prelude (mk (.ident "x" 0)) "x" 0 12 c8St2 (mk .null)
    (by rfl) (by rfl) (by rfl) (by rfl) (by rfl) (by rfl) (by rfl) (by rfl) (by rfl)
    (by rfl) (by rfl) (by rfl) (by rfl) (by rfl) (by rfl)

theorem ret_pushFrame (s : EvState) (b : NodeId) : (pushFrame s b).ret = s.ret := rfl

theorem ret_popFrame (s : EvState) : (popFrame s).ret = s.ret := rfl

/-- invoke never touches the return-mode flag on normal completion. -/
theorem invoke_ret (s : EvState) (b : NodeId) (v : Option NodeId) (s1 : EvState)
    (h : invoke s b = .ok v s1) : s1.ret = s.ret := by
  unfold invoke at h
  repeat' split at h
  all_goals cases h
  all_goals rfl

/-- isDefined never touches the return-mode flag. -/
theorem isDefined_ret (s : EvState) (id : NodeId) (v : Option NodeId) (s1 : EvState)
    (h : isDefined s id = .ok v s1) : s1.ret = s.ret := by
  unfold isDefined at h
  repeat' split at h
  all_goals cases h
  all_goals rfl

/-- visitImport never touches the return-mode flag. -/
theorem visitImport_ret (env : Env) (s : EvState) (id : NodeId) (p : String)
    (v : Option NodeId) (s1 : EvState)
    (h : visitImport env s id p = .ok v s1) : s1.ret = s.ret := by
  unfold visitImport at h
  split at h
  · cases h
    rfl
  · cases hip : s.importPath with
    | none =>
      simp only [hip] at h
      cases hlook : env.fileLookup (p ++ ".styl") (s.paths ++ []) with
      | none => simp only [hlook] at h; cases h
      | some found =>
        simp only [hlook] at h
        cases hparse : env.fileParse found with
        | none => simp only [hparse] at h; cases h
        | some parsed =>
          simp only [hparse] at h
          cases hroot : s.store[s.rootId]? with
          | none => simp only [hroot] at h; cases h
          | some rootN =>
            simp only [hroot] at h
            cases hns : nodesOf rootN with
            | none => simp only [hns] at h; cases h
            | some ns =>
              simp only [hns] at h
              cases h
              rfl
    | some r =>
      simp only [hip] at h
      cases hlook : env.fileLookup (p ++ ".styl") (s.paths ++ [r]) with
      | none => simp only [hlook] at h; cases h
      | some found =>
        simp only [hlook] at h
        cases hparse : env.fileParse found with
        | none => simp only [hparse] at h; cases h
        | some parsed =>
          simp only [hparse] at h
          cases hroot : s.store[s.rootId]? with
          | none => simp only [hroot] at h; cases h
          | some rootN =>
            simp only [hroot] at h
            cases hns : nodesOf rootN with
            | none => simp only [hns] at h; cases h
            | some ns =>
              simp only [hns] at h
              cases h
              rfl

/-- bindParams never touches the return-mode flag on normal
completion. -/
theorem bindParams_ret :
    ∀ pids fuel (s : EvState) argNodes i fname v s1,
      bindParams fuel s pids argNodes i fname = .ok v s1 → s1.ret = s.ret := by
  intro pids
  induction pids with
  | nil =>
    intro fuel s argNodes i fname v s1 h
    simp only [bindParams] at h
    injection h with h1 h2
    subst h2
    rfl
  | cons p ps ih =>
    intro fuel s argNodes i fname v s1 h
    simp only [bindParams] at h
    cases hp : s.store[p]? with
    | none => simp only [hp] at h; cases h
    | some pn =>
      simp only [hp] at h
      cases hk : pn.kind <;> simp only [hk] at h <;> try cases h
      case ident nm pv =>
        cases hc : cloneN fuel s.store p with
        | none => simp only [hc] at h; cases h
        | some pr =>
          obtain ⟨cid, st1⟩ := pr
          simp only [hc] at h
          cases hv : (setIdentVal { s with store := st1 }
              cid ((argNodes[i]?).getD pv)).store[(argNodes[i]?).getD pv]? with
          | none =>
            simp only [hv] at h
            rw [ih fuel _ argNodes (i + 1) fname v s1 h, ret_scopeAdd, ret_setIdentVal]
          | some vn =>
            simp only [hv] at h
            cases hkv : vn.kind <;> simp only [hkv] at h <;> try cases h
            all_goals
              rw [ih fuel _ argNodes (i + 1) fname v s1 h, ret_scopeAdd, ret_setIdentVal]

/-- A native callable resolved by lookupFunction comes from the
user-supplied function table or from the builtin registry. -/
theorem lookupFunction_builtin (env : Env) (s : EvState) (name : String) (b : Builtin)
    (h : lookupFunction env s name = some (.builtin b)) :
    env.functions name = some b ∨ env.bifs name = some b := by
  unfold lookupFunction at h
  split at h
  · injection h with h2
    cases h2
  · split at h
    · rename_i b2 heq
      injection h with h2
      injection h2 with h3
      subst h3
      exact Or.inl heq
    · cases hb : env.bifs name with
      | none => rw [hb] at h; cases h
      | some b2 =>
        rw [hb] at h
        injection h with h2
        injection h2 with h3
        subst h3
        exact Or.inr rfl

/-- Return-mode preservation for the whole interpreter: provided every
native callable of the environment leaves the flag unchanged, every job
that completes normally restores the return-mode flag to its incoming
value. -/
theorem step_ret_preserved (env : Env) (henv : RetPresEnv env) :
    ∀ fuel (s : EvState) job v s1,
      step fuel env s job = .ok v s1 → JobRetOK job → s1.ret = s.ret := by
  intro fuel
  induction fuel with
  | zero =>
    intro s job v s1 h _
    simp [step] at h
  | succ f ih =>
    intro s job v s1 h hok
    cases job with
    | visitJob id =>
      simp only [step] at h
      cases hn : s.store[id]? with
      | none => simp only [hn] at h; cases h
      | some n =>
        simp only [hn] at h
        split at h
        · cases h
        · have hih := ih _ _ _ _ h trivial
          exact hih
    | dispatchJob id n =>
      simp only [step] at h
      split at h
      · cases h
        rfl
      · cases h
        rfl
      · cases h
        rfl
      · cases h
        rfl
      · cases h
        rfl
      · cases h
        rfl
      · exact ih _ _ _ _ h trivial
      · exact ih _ _ _ _ h trivial
      · exact ih _ _ _ _ h trivial
      · exact ih _ _ _ _ h trivial
      · exact ih _ _ _ _ h trivial
      · exact ih _ _ _ _ h trivial
      · exact ih _ _ _ _ h trivial
      · exact visitImport_ret _ _ _ _ _ _ h
      · exact ih _ _ _ _ h trivial
      · exact ih _ _ _ _ h trivial
      · exact ih _ _ _ _ h trivial
    | slotsJob id i len =>
      simp only [step] at h
      split at h
      · cases hn : s.store[id]? with
        | none => simp only [hn] at h; cases h
        | some n =>
          simp only [hn] at h
          cases hc : (nodesOf n).bind (fun ns => ns[i]?) with
          | none => simp only [hc] at h; cases h
          | some child =>
            simp only [hc] at h
            split at h
            · rename_i v2 s2 heq
              rw [ih _ _ _ _ h trivial, ret_writeSlot]
              exact ih _ _ _ _ heq trivial
            · rename_i heq
              exact absurd h (heq _ _)
      · cases h
        rfl
    | rootLoopJob id i =>
      simp only [step] at h
      cases hn : s.store[id]? with
      | none => simp only [hn] at h; cases h
      | some n =>
        simp only [hn] at h
        cases hns : nodesOf n with
        | none => simp only [hns] at h; cases h
        | some ns =>
          simp only [hns] at h
          split at h
          · cases hc : ns[i]? with
            | none => simp only [hc] at h; cases h
            | some child =>
              simp only [hc] at h
              split at h
              · rename_i v2 s2 heq
                rw [ih _ _ _ _ h trivial, ret_writeSlot]
                have hih := ih _ _ _ _ heq trivial
                exact hih
              · rename_i heq
                exact absurd h (heq _ _)
          · cases h
            rfl
    | blockJob id =>
      simp only [step] at h
      cases hlen : (pushFrame s id).store[id]? with
      | none =>
        simp only [hlen] at h
        split at h
        · rename_i v2 s2 heq
          cases h
          have hih := ih _ _ _ _ heq trivial
          exact hih
        · rename_i heq
          exact absurd h (heq _ _)
      | some n =>
        simp only [hlen] at h
        split at h
        · rename_i v2 s2 heq
          cases h
          have hih := ih _ _ _ _ heq trivial
          exact hih
        · rename_i heq
          exact absurd h (heq _ _)
    | selectorJob id b =>
      simp only [step] at h
      split at h
      · rename_i v2 s2 heq
        cases h
        cases v2 with
        | none => exact ih _ _ _ _ heq trivial
        | some b2 =>
          rw [ret_setSelectorBlock]
          exact ih _ _ _ _ heq trivial
      · rename_i heq
        exact absurd h (heq _ _)
    | identJob id name val =>
      simp only [step] at h
      split at h
      · split at h
        · exact ih _ _ _ _ h trivial
        · cases h
          rfl
      · split at h
        · rename_i v2 s2 heq
          cases v2 with
          | none =>
            cases h
            rw [ret_scopeAdd]
          | some v0 =>
            cases h
            rw [ret_scopeAdd, ret_setIdentVal]
        · rename_i heq
          exact absurd h (heq _ _)
    | callJob id name argsId =>
      simp only [step] at h
      cases hl : lookupFunction env s name with
      | none =>
        simp only [hl] at h
        exact ih _ _ _ _ h trivial
      | some fv =>
        simp only [hl] at h
        cases fv with
        | builtin b =>
          dsimp only at h
          split at h
          · rename_i av s2 heq
            cases av with
            | some a =>
              have hih := ih _ _ _ _ h (henv name b (lookupFunction_builtin env s name b hl))
              exact hih
            | none => simp at h
          · rename_i heq
            exact absurd h (heq _ _)
        | node nid =>
          cases hu : unwrap s.store nid with
          | none =>
            simp only [hu, Option.map_none'] at h
            split at h
            · rename_i av s2 heq
              cases h
              rfl
            · rename_i heq
              exact absurd h (heq _ _)
          | some fnid =>
            simp only [hu, Option.map_some'] at h
            split at h
            · rename_i av s2 heq
              try dsimp only at h
              cases hsf : s2.store[fnid]? with
              | none =>
                simp only [hsf] at h
                cases h
                rfl
              | some n2 =>
                simp only [hsf] at h
                cases hk2 : n2.kind <;> simp only [hk2] at h
                case function fname pid bid =>
                  cases av with
                  | some a =>
                    have hih := ih _ _ _ _ h trivial
                    exact hih
                  | none => simp at h
                all_goals cases h
                all_goals rfl
            · rename_i heq
              exact absurd h (heq _ _)
    | literalJob id argsId =>
      simp only [step] at h
      split at h
      · rename_i v2 s2 heq
        cases h
        cases v2 with
        | none => exact ih _ _ _ _ heq trivial
        | some a =>
          rw [ret_setCallArgs]
          exact ih _ _ _ _ heq trivial
      · rename_i heq
        exact absurd h (heq _ _)
    | invokeFnJob fnId argsId =>
      simp only [step] at h
      cases hf : s.store[fnId]? with
      | none => simp only [hf] at h; cases h
      | some fnN =>
        simp only [hf] at h
        cases hk : fnN.kind <;> simp only [hk] at h <;> try cases h
        case function fname paramsId blockId =>
          cases hc : cloneN f s.store blockId with
          | none => simp only [hc] at h; cases h
          | some pr =>
            obtain ⟨bodyId, st1⟩ := pr
            simp only [hc] at h
            cases hb : st1[bodyId]? with
            | none => simp only [hb] at h; cases h
            | some bodyN =>
              simp only [hb] at h
              cases ha : (invokePrelude s bodyId st1).store[argsId]? with
              | none => simp only [ha] at h; cases h
              | some argsN =>
                simp only [ha] at h
                cases han : nodesOf argsN with
                | none => simp only [han] at h; cases h
                | some argNodes =>
                  simp only [han] at h
                  cases hp : (invokePrelude s bodyId st1).store[paramsId]? with
                  | none => simp only [hp] at h; cases h
                  | some paramsN =>
                    simp only [hp] at h
                    cases hpn : nodesOf paramsN with
                    | none => simp only [hpn] at h; cases h
                    | some pids =>
                      simp only [hpn] at h
                      split at h
                      · rename_i vb s5 heqb
                        split at h
                        · rename_i bv s6 heqv
                          cases bv with
                          | some bId =>
                            rw [invoke_ret _ _ _ _ h, ret_popFrame,
                              ih _ _ _ _ heqv trivial,
                              bindParams_ret _ _ _ _ _ _ _ _ heqb,
                              ret_invokePrelude]
                          | none => simp at h
                        · rename_i heq
                          exact absurd h (heq _ _)
                      · rename_i heq
                        exact absurd h (heq _ _)
    | invokeBIJob b argsId =>
      simp only [step] at h
      cases ha : s.store[argsId]? with
      | none => simp only [ha] at h; cases h
      | some argsN =>
        simp only [ha] at h
        cases han : nodesOf argsN with
        | none => simp only [han] at h; cases h
        | some ns =>
          simp only [han] at h
          split at h
          · rename_i vb s2 heqb
            have hb2 : s2.ret = s.ret := hok _ _ _ _ heqb
            cases vb with
            | some vid =>
              dsimp only at h
              cases hsv : s2.store[vid]? with
              | none =>
                simp only [hsv] at h
                rw [invoke_ret _ _ _ _ h]
                exact hb2
              | some n2 =>
                simp only [hsv] at h
                cases hk2 : n2.kind <;> simp only [hk2] at h <;>
                  rw [invoke_ret _ _ _ _ h] <;> exact hb2
            | none =>
              dsimp only at h
              rw [invoke_ret _ _ _ _ h]
              exact hb2
          · rename_i heq
            exact absurd h (heq _ _)
    | binopJob op l r =>
      simp only [step] at h
      split at h
      · exact isDefined_ret _ _ _ _ h
      · split at h
        · rename_i lv s2 heqL
          cases hlf : lv.bind (firstN s2.store) with
          | none => simp only [hlf] at h; cases h
          | some lf =>
            simp only [hlf] at h
            split at h
            · rename_i rv s3 heqR
              cases hrf : rv.bind (firstN s3.store) with
              | none => simp only [hrf] at h; cases h
              | some rf =>
                simp only [hrf] at h
                repeat' split at h
                all_goals
                  first
                    | (cases h <;> rfl)
                    | (have hih := ih _ _ _ _ h trivial
                       exact hih)
            · rename_i heq
              exact absurd h (heq _ _)
        · rename_i heq
          exact absurd h (heq _ _)
    | unaryJob op e =>
      simp only [step] at h
      split at h
      · rename_i v2 s2 heq
        have hs2 : s2.ret = s.ret := ih _ _ _ _ heq trivial
        cases hbf : v2.bind (firstN s2.store) with
        | none => simp only [hbf] at h; cases h
        | some nid =>
          simp only [hbf] at h
          cases hsn : s2.store[nid]? with
          | none => simp only [hsn] at h; cases h
          | some n =>
            simp only [hsn] at h
            split at h
            · cases h
              exact hs2
            · cases hk : n.kind <;> simp only [hk] at h <;> try cases h
              case unit v0 t =>
                split at h
                · cases h
                  exact hs2
                · split at h
                  · cases h
                    exact hs2
                  · split at h
                    · cases h
                      exact hs2
                    · cases h
                      exact hs2
      · rename_i heq
        exact absurd h (heq _ _)
    | ternaryJob c t e =>
      simp only [step] at h
      split at h
      · rename_i cv s2 heq
        cases cv with
        | some c0 =>
          dsimp only at h
          split at h
          · exact (ih _ _ _ _ h trivial).trans (ih _ _ _ _ heq trivial)
          · exact (ih _ _ _ _ h trivial).trans (ih _ _ _ _ heq trivial)
        | none => simp at h
      · rename_i heq
        exact absurd h (heq _ _)
    | propJob id name e =>
      simp only [step] at h
      split at h
      · split at h
        · rename_i v2 s3 heq
          cases h
          have hih := ih _ _ _ _ heq trivial
          exact hih
        · rename_i heq
          exact absurd h (heq _ _)
      · split at h
        · rename_i v2 s2 heq
          cases h
          rfl
        · rename_i heq
          exact absurd h (heq _ _)

/-- The sample environment registers no native callables, so it
trivially satisfies the return-mode contract. -/
theorem sampleEnv_retPres : RetPresEnv sampleEnv := by
  intro name b hb
  rcases hb with hb | hb <;> exact Option.noConfusion hb

/-- The state reached by the assignment run used as the return-mode
witness: the binding for y is added to the global frame, and the
return-mode flag is back to false. -/
def c9EndState : EvState :=
  { c5State with frames := [⟨0, [("y", some 3)]⟩], trace := [3, 2] }

/-- C9: every evaluation step that temporarily sets the return-mode
flag to true (call-argument evaluation in visitCall, the assignment
right side in visitIdent, the operand evaluation in visitBinOp, the
property expression in visitProperty) restores the flag to its incoming
value on normal completion, provided every registered native callable
does the same; return mode never leaks across sibling evaluations. -/
theorem c9_return_mode_restored (fuel : Nat) (env : Env) (henv : RetPresEnv env) :
    (∀ s id name args v s1,
        visitCall fuel env s id name args = .ok v s1 → s1.ret = s.ret) ∧
    (∀ s id name val v s1,
        visitIdent fuel env s id name val = .ok v s1 → s1.ret = s.ret) ∧
    (∀ s op l r v s1,
        visitBinOp fuel env s op l r = .ok v s1 → s1.ret = s.ret) ∧
    (∀ s id name e v s1,
        visitProperty fuel env s id name e = .ok v s1 → s1.ret = s.ret) := by
  refine ⟨?_, ?_, ?_, ?_⟩ <;> intro s <;> intro a b c v s1 h <;>
    exact step_ret_preserved env henv fuel s _ _ _ h trivial

/-- Witness for C9: the assignment y = 1 evaluates its right side in
return mode yet ends with the flag back at false, by the claim theorem
applied to the concrete run. -/
theorem c9_return_mode_restored_witness :
    visitIdent 10 sampleEnv c5State 4 "y" 3 = .ok (some 3) c9EndState ∧
    c9EndState.ret = c5State.ret :=
  ⟨by rfl,
   (c9_return_mode_restored 10 sampleEnv sampleEnv_retPres).2.1
     c5State 4 "y" 3 (some 3) c9EndState (by rfl)⟩


end Stylus

